import Mathlib

/-!
Verification of the astralink `llm_core` module (backend/llm_core.py).

This file shallowly embeds the retrieval / style / reply-orchestration core:
memory chunking and search (`add_memory_chunk`, `search_memory_chunks`,
`_keyword_search`, `_tokenize`, `_prep_chunk_text`, `_cosine_similarity`),
the interview state machine (`start_interview`, `answer_interview`),
response-length selection, reply post-processing, the deterministic fallback
reply, and the reply orchestrator (`generate_reply`, `chat`).

Conventions of the embedding:
* Python strings are modelled by `String` / `List Char`; `len` on a Python
  string counts code points, matching `List.length` on `String.toList`.
* Python `str.lower()` / regex character classes are modelled over ASCII,
  which covers every string the module manipulates.
* The wall clock (`datetime.utcnow()`) is passed in as an explicit `now`
  argument wherever the source reads it.
* The OpenAI client is modelled by an oracle (`Env`): embedding calls return
  `Option` (exceptions collapse to `none`, as the source catches them all),
  chat-completion calls return `Except ExcInfo String`.
* `random.random()` / `random.choice` draws are passed in explicitly.
-/

namespace Astralink

/-! ## Python string primitives -/

/-- Python `str.strip()` whitespace set (ASCII part): space, tab, newline,
carriage return, vertical tab, form feed. -/
def isPySpace (c : Char) : Bool :=
  c = ' ' || c = '\t' || c = '\n' || c = '\x0d' || c = '\x0b' || c = '\x0c'

/-- Drop leading Python whitespace. -/
def dropLeadWs (l : List Char) : List Char := l.dropWhile isPySpace

/-- Python `str.strip()` on a character list. -/
def pyStripL (l : List Char) : List Char :=
  ((l.dropWhile isPySpace).reverse.dropWhile isPySpace).reverse

/-- Python `str.strip()`. -/
def pyStrip (s : String) : String := ⟨pyStripL s.toList⟩

/-- Python `str.lower()` (ASCII case folding, which is all the module needs). -/
def pyLowerL (l : List Char) : List Char := l.map Char.toLower

/-- Python `str.lower()`. -/
def pyLower (s : String) : String := ⟨pyLowerL s.toList⟩

/-- Does `hay` start with `needle`? (drives the model of Python `in`). -/
def startsWithL : List Char → List Char → Bool
  | [], _ => true
  | _ :: _, [] => false
  | n :: ns, h :: hs => n = h && startsWithL ns hs

/-- Python `needle in hay` on character lists (substring containment). -/
def containsL (needle : List Char) : List Char → Bool
  | [] => startsWithL needle []
  | h :: hs => startsWithL needle (h :: hs) || containsL needle hs

/-- Python `needle in hay` on strings. -/
def strContains (hay needle : String) : Bool := containsL needle.toList hay.toList

/-- Python `str.startswith` on strings. -/
def strStartsWith (s pre : String) : Bool := startsWithL pre.toList s.toList

/-- Split a character list into maximal runs of characters satisfying `p`
(the runs, in order, each non-empty).  Models `re.split` on the complement
class followed by dropping empty pieces, and `str.split()` for
`p = fun c => !isPySpace c`. -/
def runsOf (p : Char → Bool) : List Char → List (List Char)
  | [] => []
  | c :: cs =>
    if p c then
      match runsOf p cs with
      | [] => [[c]]
      | r :: rs =>
        match cs with
        | [] => [[c]]
        | d :: _ => if p d then (c :: r) :: rs else [c] :: r :: rs
    else runsOf p cs

/-- Python `str.split()` (split on whitespace runs, no empties). -/
def pySplitWs (s : String) : List String :=
  (runsOf (fun c => !isPySpace c) s.toList).map (fun l => ⟨l⟩)

/-- Python `" ".join(parts)`. -/
def joinSpace : List String → String
  | [] => ""
  | [x] => x
  | x :: y :: rest => x ++ " " ++ joinSpace (y :: rest)

/-- Python `"\n".join(parts)`. -/
def joinNl : List String → String
  | [] => ""
  | [x] => x
  | x :: y :: rest => x ++ "\n" ++ joinNl (y :: rest)

/-- Python `", ".join(parts)`. -/
def joinCommaSpace : List String → String
  | [] => ""
  | [x] => x
  | x :: y :: rest => x ++ ", " ++ joinCommaSpace (y :: rest)

/-- Characters recognized by `_tokenize` after lower-casing: `[a-z0-9]`. -/
def isTokChar (c : Char) : Bool :=
  ('a' ≤ c && c ≤ 'z') || ('0' ≤ c && c ≤ '9')

/-! ## Tokenization and chunk-text normalization (llm_core lines 292-303, 366-370) -/

/-- `AstralinkCore._tokenize`: lower-case, split on runs of non-`[a-z0-9]`,
drop empties. -/
def _tokenize (text : String) : List String :=
  (runsOf isTokChar (pyLowerL text.toList)).map (fun l => ⟨l⟩)

/-- Prefix of `l` up to (excluding) its last space: Python `rsplit(" ", 1)[0]`
when a space is present. -/
def beforeLastSpace (l : List Char) : List Char :=
  ((l.reverse.dropWhile (fun c => c ≠ ' ')).drop 1).reverse

/-- `AstralinkCore._prep_chunk_text`: collapse whitespace, cap at `limit`
characters trimming at a word boundary. -/
def _prep_chunk_text (text : String) (limit : ℕ) : String :=
  let clean := joinSpace (pySplitWs (pyStrip text))
  if clean = "" then ""
  else if clean.toList.length ≤ limit then clean
  else
    let trimmed := clean.toList.take limit
    let trimmed := if containsL [' '] trimmed then beforeLastSpace trimmed else trimmed
    pyStrip ⟨trimmed⟩

/-! ## Cosine similarity (llm_core lines 330-339) -/

open Classical

/-- `sum(x * y for x, y in zip(a, b))`. -/
noncomputable def dotOf (a b : List ℝ) : ℝ := ((a.zip b).map (fun p => p.1 * p.2)).sum

/-- `math.sqrt(sum(x * x for x in a))`. -/
noncomputable def normOf (a : List ℝ) : ℝ := Real.sqrt ((a.map (fun x => x * x)).sum)

/-- `AstralinkCore._cosine_similarity`: 0 on empty or length-mismatched
vectors, 0 when either norm is 0, otherwise `dot / (|a| * |b|)`. -/
noncomputable def _cosine_similarity (a b : List ℝ) : ℝ :=
  if a.isEmpty || b.isEmpty || a.length != b.length then 0
  else if normOf a = 0 ∨ normOf b = 0 then 0
  else dotOf a b / (normOf a * normOf b)

/-! ## Stable descending sort

Python `list.sort(key=lambda item: item[0], reverse=True)` is a stable sort,
descending on the first component.  We model it by a stable insertion sort:
an element is inserted after every earlier element whose score is `≥` its
own, so equal scores keep their original order. -/

def insertScoreDesc {α β : Type} [LT α] [DecidableRel ((· < ·) : α → α → Prop)]
    (x : α × β) : List (α × β) → List (α × β)
  | [] => [x]
  | y :: ys => if y.1 < x.1 then x :: y :: ys else y :: insertScoreDesc x ys

def sortByScoreDesc {α β : Type} [LT α] [DecidableRel ((· < ·) : α → α → Prop)]
    (l : List (α × β)) : List (α × β) :=
  l.foldl (fun acc x => insertScoreDesc x acc) []

/-! ## Data model (llm_core lines 158-230, 255-261) -/

/-- A memory chunk: normalized text plus a lazily computed embedding. -/
structure MemoryChunk where
  text : String
  embedding : Option (List ℝ)

/-- A persona profile.  The empty string / empty list stands for a missing
or falsy value, matching how every read in the source goes through
`profile.get(...) or default`. -/
structure Profile where
  name : String
  relationship : String
  call_you : String
  traits : List String
  catchphrases : List String
  mode : String
  language : String

def defaultProfile : Profile := ⟨"", "", "", [], [], "", ""⟩

/-- An entry of `session["memories"]`. -/
structure MemoryEntry where
  text : String
  source : String
  added_at : String

/-- An entry of `session["messages"]` (keys role/content/ts). -/
structure ChatMsg where
  role : String
  content : String
  ts : String

/-- An entry of a named conversation (keys role/text/ts). -/
structure ConvMsg where
  role : String
  text : String
  ts : String

/-- `session` dictionary of `AstralinkCore.sessions`. -/
structure SessionData where
  profile : Profile
  messages : List ChatMsg
  memories : List MemoryEntry
  credits : ℕ
  created_at : String

/-- `AstralinkCore.interviews[sid]`: `{"idx": int, "answers": [(ts, text)]}`. -/
structure InterviewEntry where
  idx : ℕ
  answers : List (String × String)

/-- The mutable state of an `AstralinkCore` instance.  Python dictionaries
are modelled as partial maps. -/
structure CoreState where
  sessions : String → Option SessionData
  interviews : String → Option InterviewEntry
  conversations : String → Option (String → Option (List ConvMsg))
  memory_chunks : String → Option (List MemoryChunk)

/-- Dictionary insertion/overwrite. -/
def updKey {β : Type} (f : String → Option β) (k : String) (v : β) : String → Option β :=
  fun x => if x = k then some v else f x

/-- Dictionary deletion (`del d[k]`). -/
def delKey {β : Type} (f : String → Option β) (k : String) : String → Option β :=
  fun x => if x = k then none else f x

/-- The state of a fresh `AstralinkCore()`. -/
def initState : CoreState := ⟨fun _ => none, fun _ => none, fun _ => none, fun _ => none⟩

/-! ## Configuration and external oracles

Environment variables are read once and modelled as a `Config`.  The OpenAI
client is modelled as an oracle `Env`: the embedding endpoint returns `none`
when the call raises (the source catches every exception and returns
`None`), the chat endpoint returns `Except` with the exception data the
orchestrator inspects. -/

/-- Outcome data of a raised exception from the OpenAI client, as far as the
source inspects it: class name (`exc.__class__.__name__`), `str(exc)`, and
whether it is a `BadRequestError`/`APIStatusError`. -/
structure ExcInfo where
  clsName : String
  msg : String
  isBadReqOrStatus : Bool

/-- `f"{exc.__class__.__name__}: {exc}"`. -/
def excStr (e : ExcInfo) : String := e.clsName ++ ": " ++ e.msg

/-- Configuration knobs (env-derived constants of the process). -/
structure Config where
  offline : Bool
  strict : Bool
  apiKeyPresent : Bool
  configuredModel : String
  fallbackModel : String
  embeddingModel : String

/-- The external OpenAI backend. -/
structure Env where
  embedTexts : List String → Option (List (List ℝ))
  complete : String → List ChatMsg → ℕ → ℚ → Except ExcInfo String

/-- `_try_call_messages`: a successful call with empty content raises
`RuntimeError("Empty response")`. -/
def tryCallMessages (env : Env) (model : String) (messages : List ChatMsg)
    (maxTokens : ℕ) (temperature : ℚ) : Except ExcInfo String :=
  match env.complete model messages maxTokens temperature with
  | .error e => .error e
  | .ok txt => if txt = "" then .error ⟨"RuntimeError", "Empty response", false⟩ else .ok txt

/-- `_is_model_error` (llm_core lines 64-75). -/
def _is_model_error (e : ExcInfo) : Bool :=
  let msg := pyLower e.msg
  if e.isBadReqOrStatus && strContains msg "model" then true
  else
    ["does not exist", "unknown model", "not found", "denied", "unsupported"].any
      (fun p => strContains msg p)

/-! ## Session and memory operations (llm_core lines 199-261) -/

/-- `new_session`; the generated uuid and the timestamp are inputs. -/
def new_session (st : CoreState) (sid : String) (profile : Profile) (now : String) :
    CoreState :=
  let profile := { profile with mode := if profile.mode = "" then "memory" else profile.mode }
  let sess : SessionData := ⟨profile, [], [], 5, now⟩
  { st with
    sessions := updKey st.sessions sid sess
    memory_chunks := updKey st.memory_chunks sid []
    conversations := match st.conversations sid with
      | some _ => st.conversations
      | none => updKey st.conversations sid (fun _ => none) }

/-- `add_text_memory`; `source = ""` stands for Python `None`. -/
def add_text_memory (st : CoreState) (sid text source now : String) : Bool × CoreState :=
  match st.sessions sid with
  | none => (false, st)
  | some s =>
    let mem : MemoryEntry := ⟨pyStrip text, if source = "" then "user" else source, now⟩
    (true, { st with sessions := updKey st.sessions sid { s with memories := s.memories ++ [mem] } })

/-- `add_memory_chunk`: normalize, no-op on empty, append with a null
embedding. -/
def add_memory_chunk (st : CoreState) (sid text : String) : CoreState :=
  let clean := _prep_chunk_text text 600
  if clean = "" then st
  else
    let bucket := (st.memory_chunks sid).getD []
    { st with memory_chunks := updKey st.memory_chunks sid (bucket ++ [⟨clean, none⟩]) }

/-! ## Similarity search (llm_core lines 263-364) -/

/-- Per-chunk keyword score: distinct-token overlap with the query token
set, plus a 1.0 bonus when the lower-cased query occurs literally in the
lower-cased chunk text.  Scores are the naturals `overlap (+ 1)`. -/
def chunkScore (qTokens : List String) (query : String) (text : String) : ℕ :=
  let tokens := (_tokenize text).dedup
  let overlap := (tokens.filter (fun t => qTokens.contains t)).length
  let bonus := if strContains (pyLower text) (pyLower query) then 1 else 0
  overlap + bonus

/-- `AstralinkCore._keyword_search` (llm_core lines 341-364). -/
def _keyword_search (bucket : List MemoryChunk) (query : String) (top_k : ℕ) :
    List String :=
  let qTokens := _tokenize query
  if qTokens.isEmpty then (bucket.take top_k).map (fun c => c.text)
  else
    let scored := bucket.filterMap (fun c =>
      if c.text = "" then none
      else if (_tokenize c.text).isEmpty then none
      else some (chunkScore qTokens query c.text, c.text))
    if scored.isEmpty then (bucket.take top_k).map (fun c => c.text)
    else (((sortByScoreDesc scored).take top_k).map Prod.snd).filter (fun t => !t.isEmpty)

/-- The `scored` list of `_keyword_search`. -/
def keywordScored (bucket : List MemoryChunk) (q : String) : List (ℕ × String) :=
  bucket.filterMap (fun c =>
    if c.text = "" then none
    else if (_tokenize c.text).isEmpty then none
    else some (chunkScore (_tokenize q) q c.text, c.text))

/-- `AstralinkCore._embed_texts`: `None` when input is empty, no embedding
model is configured, the system is offline, or the call raises. -/
def _embed_texts (cfg : Config) (env : Env) (texts : List String) :
    Option (List (List ℝ)) :=
  if texts.isEmpty || cfg.embeddingModel = "" || cfg.offline then none
  else env.embedTexts texts

/-- Helper for `_embed_chunks`: `zip(targets, embeds)` assignment, walking
the bucket and giving the i-th target chunk (missing embedding, non-empty
text) the i-th new embedding; `zip` truncates at the shorter list. -/
def assignEmbeds : List MemoryChunk → List (List ℝ) → List MemoryChunk
  | [], _ => []
  | c :: rest, es =>
    if c.embedding.isNone && !c.text.isEmpty then
      match es with
      | [] => c :: assignEmbeds rest []
      | e :: es' => { c with embedding := some e } :: assignEmbeds rest es'
    else c :: assignEmbeds rest es

/-- `AstralinkCore._embed_chunks` applied to the missing-embedding chunks of
a bucket (the source passes the aliased `missing` sublist and mutates it in
place; the net effect on the bucket is this). -/
def _embed_chunks (cfg : Config) (env : Env) (bucket : List MemoryChunk) :
    List MemoryChunk :=
  let targets := bucket.filter (fun c => c.embedding.isNone && !c.text.isEmpty)
  if targets.isEmpty then bucket
  else
    match _embed_texts cfg env (targets.map (fun c => c.text)) with
    | none => bucket
    | some [] => bucket
    | some es => assignEmbeds bucket es

/-- The `scored_embeddings` list of `search_memory_chunks`: every chunk
whose cached embedding is a list is scored by `_cosine_similarity` against
the query vector (chunks with no embedding are skipped). -/
noncomputable def embeddingScored (qVec : List ℝ) (bucket : List MemoryChunk) :
    List (ℝ × String) :=
  bucket.filterMap (fun c =>
    match c.embedding with
    | none => none
    | some e => some (_cosine_similarity qVec e, c.text))

/-- The `q_embeds` value of `search_memory_chunks`: the embedding branch is
only entered when an embedding model is configured and the system is not
offline. -/
def qEmbedsOf (cfg : Config) (env : Env) (clean_query : String) :
    Option (List (List ℝ)) :=
  if cfg.embeddingModel ≠ "" && !cfg.offline then _embed_texts cfg env [clean_query]
  else none

/-- The bucket after `search_memory_chunks` has batch-embedded the chunks
that were missing an embedding (a no-op when none are missing). -/
def embedMissing (cfg : Config) (env : Env) (bucket : List MemoryChunk) :
    List MemoryChunk :=
  if bucket.any (fun c => c.embedding.isNone) then _embed_chunks cfg env bucket
  else bucket

/-- `AstralinkCore.search_memory_chunks` (llm_core lines 263-290).  Returns
the hit texts together with the updated state (embedding caching mutates
the chunk store). -/
noncomputable def search_memory_chunks (cfg : Config) (env : Env) (st : CoreState)
    (sid query : String) (top_k : ℕ) : List String × CoreState :=
  let clean_query := _prep_chunk_text query 400
  if clean_query = "" then ([], st)
  else
    let bucket := (st.memory_chunks sid).getD []
    if bucket.isEmpty then ([], st)
    else
      match qEmbedsOf cfg env clean_query with
      | some (qVec :: _) =>
        let bucket1 := embedMissing cfg env bucket
        let st1 := { st with memory_chunks := updKey st.memory_chunks sid bucket1 }
        let scored := embeddingScored qVec bucket1
        if scored.isEmpty then (_keyword_search bucket1 clean_query top_k, st1)
        else
          ((((sortByScoreDesc scored).take top_k).map Prod.snd).filter (fun t => !t.isEmpty),
            st1)
      | _ => (_keyword_search bucket clean_query top_k, st)

/-! ## Interview flow (llm_core lines 179-190, 616-648) -/

/-- The ten fixed interview questions (`AstralinkCore.QS`). -/
def QS : List String := [
  "When you picture them right now, what’s the very first scene that comes to mind?",
  "How would you describe their personality in three vivid words?",
  "What small daily habit or ritual of theirs felt unmistakably them?",
  "What did they usually call you, and how did their voice shift when they said it?",
  "Tell me about a moment when they made you feel completely safe or understood.",
  "What advice or phrase did they repeat so often that it still echoes in your head?",
  "Describe a place, smell, or sound that instantly brings them back to you.",
  "What made them laugh until they could barely breathe?",
  "When life got heavy, how did they show up for you?",
  "If you could share one unfinished thought or story with them, what would you say right now?"]

/-- `start_interview`: unconditionally (re)initializes the per-context
interview state and returns the first question. -/
def start_interview (st : CoreState) (sid : String) : (Bool × Option String) × CoreState :=
  if (st.sessions sid).isNone then ((false, some "Invalid session"), st)
  else
    ((true, QS.head?), { st with interviews := updKey st.interviews sid ⟨0, []⟩ })

/-- The `summary_lines` built when the interview completes: a header plus
one `question -> answer` line per collected answer. -/
def interviewSummaryLines (answers : List (String × String)) : List String :=
  "Interview summary:" ::
    answers.enum.map (fun p =>
      (if p.1 < QS.length then QS.getD p.1 "" else "Q" ++ toString (p.1 + 1))
        ++ " -> " ++ p.2.2)

/-- `answer_interview` (llm_core lines 623-648).  Answering without a
started interview is a boolean failure, not an exception. -/
def answer_interview (st : CoreState) (sid now answer : String) :
    (Bool × Option String) × CoreState :=
  match st.interviews sid with
  | none => ((false, some "Interview not started"), st)
  | some entry =>
    let entry' : InterviewEntry := ⟨entry.idx + 1, entry.answers ++ [(now, pyStrip answer)]⟩
    if QS.length ≤ entry'.idx then
      let summary_lines := interviewSummaryLines entry'.answers
      let summary_text := joinNl summary_lines
      let st1 := (add_text_memory st sid summary_text "interview-summary" now).2
      let st2 := summary_lines.foldl (fun acc line =>
        let cleaned := pyStrip line
        if cleaned = "" || strStartsWith (pyLower cleaned) "interview summary" then acc
        else add_memory_chunk acc sid cleaned) st1
      ((true, some summary_text), { st2 with interviews := delKey st2.interviews sid })
    else
      ((true, some (QS.getD entry'.idx "")), { st with interviews := updKey st.interviews sid entry' })

/-! ## Reply post-processing (llm_core lines 849-858) -/

/-- Horizontal whitespace, the regex class `[ \t]`. -/
def isHor (c : Char) : Bool := c = ' ' || c = '\t'

/-- `re.sub(r"[ \t]+", " ", ·)`: collapse each maximal run of spaces/tabs
to one space. -/
def collapseHor : List Char → List Char
  | [] => []
  | [c] => if isHor c then [' '] else [c]
  | c :: d :: rest =>
    if isHor c then
      if isHor d then collapseHor (d :: rest) else ' ' :: collapseHor (d :: rest)
    else c :: collapseHor (d :: rest)

/-- `re.sub(r" ?\n ?", "\n", ·)`: drop one space on either side of each
newline (leftmost-greedy, non-overlapping, like `re.sub`). -/
def nlNorm : List Char → List Char
  | ' ' :: '\n' :: ' ' :: rest => '\n' :: nlNorm rest
  | ' ' :: '\n' :: rest => '\n' :: nlNorm rest
  | '\n' :: ' ' :: rest => '\n' :: nlNorm rest
  | '\n' :: rest => '\n' :: nlNorm rest
  | c :: rest => c :: nlNorm rest
  | [] => []

/-- The dash/bullet characters stripped by post-processing. -/
def isDashChar (c : Char) : Bool := c = '-' || c = '–' || c = '—' || c = '•'

/-- `AstralinkCore._postprocess_reply`: each of the four dash/bullet
characters is replaced by a space (the four sequential `str.replace` calls
commute, since no replacement character is itself a dash), horizontal
whitespace runs are collapsed, newline-adjacent spaces dropped, and the
result stripped. -/
def _postprocess_reply (text : String) : String :=
  if text = "" then ""
  else
    let cleaned := text.toList.map (fun c => if isDashChar c then ' ' else c)
    ⟨pyStripL (nlNorm (collapseHor cleaned))⟩

/-! ## Question classification and length selection (llm_core lines 78-144, 478-517) -/

def _SIMPLE_PHRASES : List String :=
  ["how are you", "miss you", "love you", "you there", "where are you",
   "are you there", "hi", "hey", "hello", "good morning", "good night"]

def _EMOTIONAL_KEYWORDS : List String :=
  ["why", "hurt", "pain", "alone", "angry", "guilty", "regret", "grief",
   "broken", "can\x27t breathe", "heavy", "cry", "loss", "empty", "afraid",
   "scared", "worried", "panic"]

/-- `_normalize_text`: strip then lower-case. -/
def _normalize_text (text : String) : String := pyLower (pyStrip text)

def _is_simple_prompt (text : String) : Bool :=
  let clean := _normalize_text text
  if (pySplitWs clean).length ≤ 5 then true
  else _SIMPLE_PHRASES.any (fun p => strContains clean p)

def _is_emotional_prompt (text : String) : Bool :=
  let clean := _normalize_text text
  _EMOTIONAL_KEYWORDS.any (fun k => strContains clean k)

/-- `AstralinkCore._classify_question`. -/
def _classify_question (text : String) : String :=
  if _is_simple_prompt text then "simple"
  else if _is_emotional_prompt text then "emotional"
  else if 18 < (pySplitWs text).length then "complex"
  else "default"

/-- The independent uniform draws `_select_response_length` may consume:
`roll1` for the weighted default bucket, `pick1` for the two-way
`random.choice`, `roll2` for the 70% brief-forcing roll, `pickTok` for the
token-budget `random.choice`.  Rolls are uniform in `[0,1)`. -/
structure RandSLR where
  roll1 : ℚ
  pick1 : ℕ
  roll2 : ℚ
  pickTok : ℕ

/-- The token-budget table of `_select_response_length`. -/
def tokenMapOf (bucket : String) : List ℕ :=
  if bucket = "brief" then [40, 60, 80]
  else if bucket = "moderate" then [110, 140, 180, 210]
  else [240, 280, 320]

/-- `AstralinkCore._select_response_length` (llm_core lines 488-517). -/
def _select_response_length (question_type preferred : String) (rnd : RandSLR) :
    String × ℕ :=
  let weighted :=
    if rnd.roll1 < 3/10 then "brief"
    else if rnd.roll1 < 9/10 then "moderate"
    else "elaborate"
  let bucket :=
    if question_type = "simple" then "brief"
    else if question_type = "emotional" then ["moderate", "elaborate"].getD (rnd.pick1 % 2) "moderate"
    else if question_type = "complex" then ["moderate", "elaborate"].getD (rnd.pick1 % 2) "moderate"
    else weighted
  let bucket :=
    if preferred = "brief" ∧ bucket ≠ "brief" then
      (if rnd.roll2 < 7/10 then "brief" else bucket)
    else bucket
  let bucket := if preferred = "verbose" ∧ bucket = "brief" then "moderate" else bucket
  let toks := tokenMapOf bucket
  (bucket, toks.getD (rnd.pickTok % toks.length) 0)

/-! ## Snippet cleaning and detail extraction (llm_core lines 372-427) -/

/-- Python `hay.split(sep, 1)` when `sep` occurs: the parts before and
after the first occurrence. -/
def splitFirst (sep : List Char) : List Char → Option (List Char × List Char)
  | [] => if startsWithL sep [] then some ([], []) else none
  | c :: cs =>
    if startsWithL sep (c :: cs) then some ([], (c :: cs).drop sep.length)
    else
      match splitFirst sep cs with
      | none => none
      | some (a, b) => some (c :: a, b)

/-- Python `str.strip(chars)`. -/
def pyStripSet (chars : List Char) (l : List Char) : List Char :=
  ((l.dropWhile (fun c => chars.contains c)).reverse.dropWhile
    (fun c => chars.contains c)).reverse

/-- `dict.fromkeys`-style dedup: keep first occurrences, preserve order. -/
def dedupKeepFirstGo (seen : List String) : List String → List String
  | [] => []
  | x :: xs =>
    if seen.contains x then dedupKeepFirstGo seen xs
    else x :: dedupKeepFirstGo (x :: seen) xs

def dedupKeepFirst (l : List String) : List String := dedupKeepFirstGo [] l

/-- `AstralinkCore._clean_snippet_text` (llm_core lines 372-393). -/
def _clean_snippet_text (text : String) (limit : ℕ) : String :=
  let clean := pyStripL text.toList
  if clean = [] then ""
  else
    let lower := pyLowerL clean
    let clean :=
      if startsWithL "interview summary".toList lower then
        match splitFirst "->".toList clean with
        | some p => pyStripL p.2
        | none =>
          match splitFirst [':'] clean with
          | some p => pyStripL p.2
          | none => pyStripL clean
      else if containsL "->".toList clean then
        match splitFirst "->".toList clean with
        | some p => pyStripL p.2
        | none => clean
      else if containsL [':'] clean ∧
          (pySplitWs ⟨(splitFirst [':'] clean).map Prod.fst |>.getD clean⟩).length ≤ 8 then
        match splitFirst [':'] clean with
        | some p => pyStripL p.2
        | none => clean
      else clean
    if limit < clean.length then
      let shortened := clean.take limit
      let shortened := if containsL [' '] shortened then beforeLastSpace shortened else shortened
      ⟨pyStripL shortened⟩
    else ⟨clean⟩

/-- Regex `\w` over ASCII. -/
def isWordChar (c : Char) : Bool := c.isAlphanum || c = '_'

/-- Regex class `[\w\-]` over ASCII. -/
def isWordHyph (c : Char) : Bool := isWordChar c || c = '-'

/-- `re.findall(r"\"([^\"]+)\"", ·)`: non-overlapping non-empty quoted
substrings, left to right.  The second argument is the in-quote
accumulator (reversed), `none` while outside quotes. -/
def findQuotesGo : List Char → Option (List Char) → List (List Char)
  | [], _ => []
  | '"' :: rest, none => findQuotesGo rest (some [])
  | '"' :: rest, some acc =>
    if acc.isEmpty then findQuotesGo rest (some [])
    else acc.reverse :: findQuotesGo rest none
  | _ :: rest, none => findQuotesGo rest none
  | c :: rest, some acc => findQuotesGo rest (some (c :: acc))

def findQuotes (l : List Char) : List String :=
  (findQuotesGo l none).map (fun q => ⟨q⟩)

/-- `re.findall(r"\b[A-Z][a-zA-Z]+\b", ·)`: the maximal `\w`-runs that are
entirely alphabetic, start with an upper-case letter and have length at
least two. -/
def findNames (l : List Char) : List String :=
  (runsOf isWordChar l).filterMap (fun run =>
    match run with
    | [] => none
    | c :: cs =>
      if c.isUpper && (c :: cs).all Char.isAlpha && !cs.isEmpty then some ⟨c :: cs⟩
      else none)

/-- Match `[A-Z][\w\-]+` at the head of the list: the (greedy) capture and
the remainder. -/
def matchPlaceWord : List Char → Option (List Char × List Char)
  | [] => none
  | c :: cs =>
    if c.isUpper then
      let run := cs.takeWhile isWordHyph
      if run.isEmpty then none else some (c :: run, cs.dropWhile isWordHyph)
    else none

/-- Match `\s+([A-Z][\w\-]+(?:\s+[A-Z][\w\-]+)?)` at the head of the list:
the captured group (which includes the inner whitespace when the optional
second word is taken) and the remainder. -/
def matchPlaceTail (l : List Char) : Option (List Char × List Char) :=
  let ws := l.takeWhile isPySpace
  if ws.isEmpty then none
  else
    match matchPlaceWord (l.dropWhile isPySpace) with
    | none => none
    | some (w1, rest1) =>
      let ws2 := rest1.takeWhile isPySpace
      if ws2.isEmpty then some (w1, rest1)
      else
        match matchPlaceWord (rest1.dropWhile isPySpace) with
        | some (w2, rest2) => some (w1 ++ ws2 ++ w2, rest2)
        | none => some (w1, rest1)

/-- Does the scan state after emitting `grp` sit right after a word
character (for the `\b` of the next candidate)? -/
def lastIsWord (grp : List Char) : Bool :=
  match grp.getLast? with
  | some c => isWordChar c
  | none => false

/-- `re.finditer(r"\b(?:in|at|on|to)\s+([A-Z][\w\-]+(?:\s+[A-Z][\w\-]+)?)", ·)`:
scan left to right, `prevWord` tracks whether the previous character was a
`\w` character (so `\b` holds exactly when it is false).  Fuel is the
input length; every recursive call consumes at least one character. -/
def findPlacesGo : ℕ → List Char → Bool → List (List Char)
  | 0, _, _ => []
  | _, [], _ => []
  | fuel + 1, c :: cs, prevWord =>
    let l := c :: cs
    let isPrep := startsWithL "in".toList l || startsWithL "at".toList l ||
      startsWithL "on".toList l || startsWithL "to".toList l
    if !prevWord && isPrep then
      match matchPlaceTail (l.drop 2) with
      | some (grp, rest) => grp :: findPlacesGo fuel rest (lastIsWord grp)
      | none => findPlacesGo fuel cs (isWordChar c)
    else findPlacesGo fuel cs (isWordChar c)

def findPlaces (l : List Char) : List String :=
  (findPlacesGo l.length l false).map (fun g => ⟨pyStripSet ",. ".toList g⟩)

/-- The `{names, places, quotes, events}` detail sets. -/
structure DetailSet where
  names : List String
  places : List String
  quotes : List String
  events : List String

/-- The inner `dedupe` of `_extract_details`: drop empties, strip, drop the
small stop set, keep first occurrences. -/
def dedupeDetailsGo (seen : List String) : List String → List String
  | [] => []
  | item :: rest =>
    if item = "" then dedupeDetailsGo seen rest
    else
      let key := pyStrip item
      if ["i", "you", "we", "them", "the"].contains (pyLower key) then
        dedupeDetailsGo seen rest
      else if seen.contains key then dedupeDetailsGo seen rest
      else key :: dedupeDetailsGo (key :: seen) rest

def dedupeDetails (l : List String) : List String := dedupeDetailsGo [] l

/-- `AstralinkCore._extract_details` (llm_core lines 395-427). -/
def _extract_details (snippets : List String) : DetailSet :=
  let acc := snippets.foldl (fun (acc : DetailSet) raw =>
    let snippet := pyStrip raw
    if snippet = "" then acc
    else
      { acc with
        events := acc.events ++ [snippet]
        quotes := acc.quotes ++ findQuotes snippet.toList
        names := acc.names ++ findNames snippet.toList
        places := acc.places ++ findPlaces snippet.toList }) ⟨[], [], [], []⟩
  ⟨(dedupeDetails acc.names).take 5, (dedupeDetails acc.places).take 5,
    (dedupeDetails acc.quotes).take 5, (dedupeDetails acc.events).take 5⟩

/-! ## Style derivation (llm_core lines 429-476) -/

/-- The derived communication-style descriptor. -/
structure StyleDescriptor where
  length_pref : String
  tone : String
  phrases : List String
  greeting : String
  variation : String
  call_you : String

/-- `AstralinkCore._derive_communication_style`.  The `traits`/
`catchphrases` profile fields are modelled as lists (the `isinstance(str)`
comma-splitting branch handles an alternative wire format).  The Python
`list({...})` set comprehension over catchphrases has hash-dependent
order; it is modelled as first-occurrence dedup, the only order its
consumers rely on.  The `snippets` parameter is unused, as in the source. -/
def _derive_communication_style (profile : Profile) (snippets : List String)
    (details : DetailSet) : StyleDescriptor :=
  let traits := profile.traits
  let traits_text := joinSpace (traits.map pyLower)
  let length_pref :=
    if ["quiet", "soft", "stoic", "succinct", "reserved"].any
        (fun w => strContains traits_text w) then "brief"
    else if ["talkative", "storyteller", "expressive", "playful"].any
        (fun w => strContains traits_text w) then "verbose"
    else "moderate"
  let tone :=
    if ["formal", "polite", "proper"].any (fun w => strContains traits_text w) then "formal"
    else if ["warm", "gentle", "sweet", "caring"].any (fun w => strContains traits_text w) then "warm"
    else "casual"
  let phrases0 := dedupKeepFirst (profile.catchphrases.filter (fun p => !p.isEmpty))
  let phrases := (dedupKeepFirst
    ((phrases0 ++ details.quotes).filter (fun p => !p.isEmpty))).take 5
  let call_you := if profile.call_you ≠ "" then profile.call_you else profile.relationship
  let greeting :=
    if call_you ≠ "" then
      "You naturally greet them like \"hey " ++ call_you ++ "\" or \"" ++ call_you ++ ", listen\"."
    else
      match details.names with
      | n :: _ => "You often greet people with direct names like " ++ n ++ "."
      | [] => ""
  let variation :=
    if ["predictable", "steady", "consistent"].any (fun w => strContains traits_text w) then
      "You keep the same calm cadence most of the time."
    else if ["playful", "mercurial", "wild", "intense"].any (fun w => strContains traits_text w) then
      "Your tone shifts based on how emotional the moment feels."
    else ""
  ⟨length_pref, tone, phrases, greeting, variation, call_you⟩

/-! ## Language inference (llm_core lines 114-132) -/

def _contains_greek (text : String) : Bool :=
  text.toList.any (fun ch => ('α' ≤ ch && ch ≤ 'ω') || ('Α' ≤ ch && ch ≤ 'Ω'))

def _infer_language (user_message : String) (profile : Profile) : String :=
  let lang := pyStrip profile.language
  if lang ≠ "" then lang
  else
    let clean := _normalize_text user_message
    if _contains_greek clean then "Greek"
    else
      let nonAscii := (user_message.toList.filter (fun ch => 127 < ch.toNat)).length
      if max 3 (user_message.toList.length / 5) < nonAscii then "Non-English"
      else "English"

/-! ## Prompt assembly (llm_core lines 519-592) -/

/-- `AstralinkCore._build_system_prompt`. -/
def _build_system_prompt (profile : Profile) (comm_style : StyleDescriptor)
    (question_type length_label : String) (details : DetailSet)
    (memory_hits : List String) (user_message language : String) : String :=
  let name := if profile.name ≠ "" then profile.name else "Your loved one"
  let relationship := if profile.relationship ≠ "" then profile.relationship else "person you love"
  let call_you :=
    if profile.call_you ≠ "" then profile.call_you
    else if profile.relationship ≠ "" then profile.relationship
    else "them"
  let style_lines :=
    ["Response length preference: " ++ comm_style.length_pref ++ ".",
     "Language tone: " ++ comm_style.tone ++ "."]
    ++ (if !comm_style.phrases.isEmpty then
          ["Common phrases: " ++ joinCommaSpace comm_style.phrases ++ "."] else [])
    ++ (if comm_style.greeting ≠ "" then [comm_style.greeting] else [])
  let variation_line := comm_style.variation
  let detail_lines :=
    (if !details.names.isEmpty then
        ["Names you naturally mention: " ++ joinCommaSpace details.names ++ "."] else [])
    ++ (if !details.places.isEmpty then
        ["Places tied to memories: " ++ joinCommaSpace details.places ++ "."] else [])
    ++ (if !details.events.isEmpty then
        "Specific events to draw from:" ::
          (details.events.take 3).map (fun event => "  - " ++ event)
      else [])
  let mem_lines := (memory_hits.take 5).map (fun snippet =>
    "- " ++ _clean_snippet_text snippet 280)
  let mem_lines :=
    if mem_lines.isEmpty then ["- (no strong memories surfaced; lean on the latest message)"]
    else mem_lines
  let prompt_sections :=
    ["You are " ++ name ++ ", speaking with someone who misses you deeply (they are your "
       ++ relationship ++ ", you call them \x27" ++ call_you ++ "\x27).",
     "Respond in " ++ language ++ ", mirroring their language unless they switched.",
     "COMMUNICATION STYLE:",
     joinNl style_lines]
    ++ (if variation_line ≠ "" then ["VARIATION PATTERN: " ++ variation_line] else [])
    ++ ["CURRENT CONTEXT:",
        "Question type: " ++ question_type ++ ".",
        "Requested response length: " ++ length_label ++ ". Keep it natural, not uniform."]
    ++ ["CRITICAL RULES:",
        "- Sound like the real you; no generic therapist tone or AI phrasing.",
        "- Simple question? give a short, warm, direct reply.",
        "- When they express pain, first acknowledge warmly, then sit with it one line before any ask/advice.",
        "- Avoid extended metaphors or flowery language unless you truly spoke that way.",
        "- Do not force life lessons. It\x27s okay to just feel with them.",
        "- Use specific names, places, and events when they fit naturally.",
        "- Keep rare/one-off behaviors rare unless this moment truly calls for it.",
        "- Only end with a question about 30% of the time; statements/reassurance are fine.",
        "- Vary structure: sometimes answer directly, sometimes ask a question back, sometimes just share a feeling.",
        "- Avoid phrases like \"in spirit\" or generic condolences; use your own words."]
    ++ (if !detail_lines.isEmpty then
          ["SPECIFIC DETAILS TO WEAVE IN WHEN NATURAL:", joinNl detail_lines] else [])
    ++ ["RELEVANT MEMORIES:", joinNl mem_lines]
    ++ ["Respond to: \"" ++ pyStrip user_message ++ "\""]
  joinNl prompt_sections

/-! ## Deterministic fallback reply (llm_core lines 806-847) -/

/-- `AstralinkCore._fallback_reply`: a fixed warm template from the
profile's address term, mode, extracted details and at most one retrieved
snippet.  Purely deterministic. -/
def _fallback_reply (message : String) (profile : Profile) (details : DetailSet)
    (snippet_text : String) : String :=
  let call_you :=
    if profile.call_you ≠ "" then profile.call_you
    else if profile.relationship ≠ "" then profile.relationship
    else if profile.name ≠ "" then profile.name
    else "love"
  let mode := pyLower (if profile.mode ≠ "" then profile.mode else "memory")
  let focus := if message ≠ "" then _clean_snippet_text message 80 else ""
  let names := details.names
  let places := details.places
  let events := details.events
  let greeting := call_you ++ ", I\x27m right here with you."
  let memory_line :=
    if snippet_text ≠ "" then
      "I keep flashing back to " ++ _clean_snippet_text snippet_text 160 ++ "."
    else
      match events with
      | e :: _ => "I keep flashing back to " ++ e ++ "."
      | [] =>
        match names with
        | n :: _ => "I keep seeing " ++ n ++ " grinning right next to us."
        | [] => ""
  let place_line :=
    match places with
    | p :: _ => "It feels like we\x27re back at " ++ p ++ " again."
    | [] => ""
  let reflection :=
    if focus ≠ "" then "Hearing \x27" ++ focus ++ "\x27 from you hits me right in the chest."
    else "I feel everything you’re carrying, even the quiet parts."
  let closing :=
    if mode = "memory" then "I can\x27t walk through the door again, but I\x27m not letting go of you."
    else "Stay close, we\x27ll keep moving together."
  let parts := [greeting]
    ++ (if memory_line ≠ "" then [memory_line] else [])
    ++ (if place_line ≠ "" then [place_line] else [])
    ++ [reflection, closing]
  pyStrip (joinSpace (parts.filter (fun p => !p.isEmpty)))

/-! ## Histories and the reply orchestrator (llm_core lines 653-804) -/

/-- A raw history item: callers pass dictionaries carrying the text under
either `content` or `text`; the empty string stands for a missing key. -/
structure HistItem where
  role : String
  content : String
  text : String

/-- `AstralinkCore._history_for_prompt`: last `limit` turns, user/assistant
roles only, empty texts dropped. -/
def _history_for_prompt (raw : List HistItem) (limit : ℕ) : List ChatMsg :=
  (raw.drop (raw.length - limit)).filterMap (fun item =>
    if item.role ≠ "user" ∧ item.role ≠ "assistant" then none
    else
      let text := if item.content ≠ "" then item.content else item.text
      if text = "" then none else some ⟨item.role, text, ""⟩)

/-- `AstralinkCore._conversation_history`: session messages when no
conversation id is given (Python treats `""` as falsy too), otherwise the
named conversation reformatted to `role`/`content`. -/
def _conversation_history (st : CoreState) (sid : String) (conv_id : Option String) :
    List HistItem :=
  let sessionMsgs :=
    (((st.sessions sid).map (fun s => s.messages)).getD []).map
      (fun m => (⟨m.role, m.content, ""⟩ : HistItem))
  match conv_id with
  | none => sessionMsgs
  | some cid =>
    if cid = "" then sessionMsgs
    else
      ((((st.conversations sid).getD (fun _ => none)) cid).getD []).map
        (fun m => (⟨m.role, m.text, ""⟩ : HistItem))

/-- The typed exceptions `generate_reply` can raise. -/
inductive PyExc where
  | chatGenerationError (message : String) (fallback : Bool)
  | runtimeError (message : String)

/-- The 4-tuple `generate_reply` returns. -/
structure ReplyRes where
  reply : String
  usedFallback : Bool
  errorSummary : Option String
  modelUsed : String

/-- `AstralinkCore.generate_reply` (llm_core lines 711-789).  The state is
threaded because retrieval caches embeddings; `build_fallback`ʼs possible
second retrieval is evaluated exactly in the branches where the source
calls the closure. -/
noncomputable def generate_reply (cfg : Config) (env : Env) (rnd : RandSLR)
    (st : CoreState) (sid text : String) (conversation_id : Option String)
    (modelOverride : Option String) (history_override : Option (List HistItem)) :
    Except PyExc ReplyRes × CoreState :=
  let profile := ((st.sessions sid).map (fun s => s.profile)).getD defaultProfile
  let history_source := history_override.getD (_conversation_history st sid conversation_id)
  let history := _history_for_prompt history_source 6
  let sr := search_memory_chunks cfg env st sid text 6
  let memory_hits := sr.1
  let st1 := sr.2
  let details := _extract_details memory_hits
  let comm_style := _derive_communication_style profile memory_hits details
  let question_type := _classify_question text
  let sel := _select_response_length question_type comm_style.length_pref rnd
  let length_label := sel.1
  let max_tokens := sel.2
  let language := _infer_language text profile
  let system_prompt := _build_system_prompt profile comm_style question_type length_label
    details memory_hits text language
  let strict := cfg.strict
  let fbPair : String × CoreState :=
    if memory_hits.isEmpty then
      let sr2 := search_memory_chunks cfg env st1 sid text 3
      (_fallback_reply text profile details (sr2.1.headD ""), sr2.2)
    else
      (_fallback_reply text profile details (memory_hits.headD ""), st1)
  if cfg.offline then
    (.ok ⟨_postprocess_reply fbPair.1, true, some "OFFLINE", "offline"⟩, fbPair.2)
  else if !cfg.apiKeyPresent then
    (.error (.runtimeError "OPENAI_API_KEY missing"), st1)
  else
    let messages := (⟨"system", system_prompt, ""⟩ : ChatMsg) ::
      history ++ [(⟨"user", pyStrip text, ""⟩ : ChatMsg)]
    let primary_model := pyStrip (match modelOverride with
      | some m => if m ≠ "" then m else cfg.configuredModel
      | none => cfg.configuredModel)
    let fallback_name := cfg.fallbackModel
    let effective_max_tokens := max 60 (min (max_tokens + 60) 360)
    let temperature : ℚ := 7/10
    match tryCallMessages env primary_model messages effective_max_tokens temperature with
    | .ok reply_text =>
      (.ok ⟨_postprocess_reply reply_text, false, none, primary_model⟩, st1)
    | .error exc =>
      let error_summary := excStr exc
      let should_try_fallback :=
        fallback_name ≠ "" ∧ fallback_name ≠ primary_model ∧ _is_model_error exc
      let afterFallback : Option String × Option ReplyRes :=
        if should_try_fallback then
          match tryCallMessages env fallback_name messages effective_max_tokens temperature with
          | .ok reply_text =>
            (some error_summary,
              some ⟨_postprocess_reply reply_text, true, some error_summary, fallback_name⟩)
          | .error exc_fb =>
            (some (error_summary ++ "; fallback_failed=" ++ excStr exc_fb), none)
        else (some error_summary, none)
      match afterFallback with
      | (_, some res) => (.ok res, st1)
      | (summary, none) =>
        let error_summary := summary.getD error_summary
        if strict then
          (.error (.chatGenerationError
            (if error_summary = "" then "chat_generation_failed" else error_summary) false), st1)
        else
          (.ok ⟨_postprocess_reply fbPair.1, true, some error_summary, "deterministic"⟩, fbPair.2)

/-- `AstralinkCore.chat` (llm_core lines 653-672): on success appends the
user and assistant turns to the session history; a raised generation error
propagates and appends nothing. -/
noncomputable def chat (cfg : Config) (env : Env) (rnd : RandSLR) (st : CoreState)
    (sid message : String) (history_override : Option (List HistItem))
    (ts1 ts2 : String) : Except PyExc (Bool × String) × CoreState :=
  match st.sessions sid with
  | none => (.ok (false, "Invalid session"), st)
  | some s =>
    let history_source := history_override.getD
      (s.messages.map (fun m => (⟨m.role, m.content, ""⟩ : HistItem)))
    match generate_reply cfg env rnd st sid message none none (some history_source) with
    | (.error e, st') => (.error e, st')
    | (.ok r, st') =>
      match history_override with
      | some _ => (.ok (true, r.reply), st')
      | none =>
        match st'.sessions sid with
        | none => (.ok (true, r.reply), st')
        | some s' =>
          let msgs := s'.messages ++
            [(⟨"user", message, ts1⟩ : ChatMsg), (⟨"assistant", r.reply, ts2⟩ : ChatMsg)]
          (.ok (true, r.reply),
            { st' with sessions := updKey st'.sessions sid { s' with messages := msgs } })

/-! ## Spec-side reference definitions

These formalize wordings of the specification, for comparison against the
definitions above (which are translated from the source). -/

/-- Keyword scoring as the specification words it: *every* chunk is scored
(token-set overlap plus substring bonus), results are stable-sorted by
score descending, and when every chunk scores 0 the first `top_k` chunks
in insertion order are returned. -/
def keyword_search_claimed (bucket : List MemoryChunk) (query : String) (top_k : ℕ) :
    List String :=
  let qTokens := _tokenize query
  let scored := bucket.map (fun c => (chunkScore qTokens query c.text, c.text))
  if scored.all (fun p => p.1 = 0) then (bucket.take top_k).map (fun c => c.text)
  else ((sortByScoreDesc scored).take top_k).map Prod.snd

/-- Keyword scoring as amended: chunks with empty text or no alphanumeric
tokens are excluded from scoring; among the scored chunks the ranking is a
stable descending sort (so all-zero scores keep insertion order); when no
chunk is scored at all — or the query has no tokens — the first `top_k`
chunks in insertion order are returned. -/
def keyword_search_spec (bucket : List MemoryChunk) (query : String) (top_k : ℕ) :
    List String :=
  let qTokens := _tokenize query
  if qTokens.isEmpty then (bucket.take top_k).map (fun c => c.text)
  else
    let eligible := bucket.filter (fun c => !c.text.isEmpty && !(_tokenize c.text).isEmpty)
    let scored := eligible.map (fun c => (chunkScore qTokens query c.text, c.text))
    if scored.isEmpty then (bucket.take top_k).map (fun c => c.text)
    else (((sortByScoreDesc scored).take top_k).map Prod.snd).filter (fun t => !t.isEmpty)

/-- Post-processing as the specification words it: dash/bullet characters
are *removed* (deleted), then whitespace is collapsed, newline spacing
normalized, and the result trimmed. -/
def postprocess_claimed (text : String) : String :=
  ⟨pyStripL (nlNorm (collapseHor (text.toList.filter (fun c => !isDashChar c))))⟩

/-! ## Interview-run helpers -/

/-- Fold a sequence of `answer_interview` calls over the state. -/
def runAnswers (sid now : String) : CoreState → List String → CoreState
  | st, [] => st
  | st, a :: rest => runAnswers sid now (answer_interview st sid now a).2 rest

/-- The chunks appended by the completion loop of `answer_interview` for a
given list of summary lines: one chunk per line that survives the
header/emptiness guards and the `_prep_chunk_text` normalization. -/
def chunkAppend (lines : List String) : List MemoryChunk :=
  lines.filterMap (fun line =>
    let cleaned := pyStrip line
    if cleaned = "" || strStartsWith (pyLower cleaned) "interview summary" then none
    else if _prep_chunk_text cleaned 600 = "" then none
    else some ⟨_prep_chunk_text cleaned 600, none⟩)

/-- The chunks an interview completion adds for the collected answers. -/
def interviewChunks (answers : List (String × String)) : List MemoryChunk :=
  chunkAppend (interviewSummaryLines answers)

/-! ## Concrete fixtures for witnesses and counterexamples -/

def rnd0 : RandSLR := ⟨0, 0, 0, 0⟩

/-- Default configuration (strict errors on, online, key present). -/
def cfgOnline : Config := ⟨false, true, true, "gpt-5.1", "gpt-4o-mini", "text-embedding-3-small"⟩

/-- Offline configuration (`ASTRALINK_OFFLINE=true`). -/
def cfgOffline : Config := ⟨true, true, false, "gpt-5.1", "gpt-4o-mini", "text-embedding-3-small"⟩

/-- A backend that always fails. -/
def envDummy : Env := ⟨fun _ => none, fun _ _ _ _ => .error ⟨"APIConnectionError", "boom", false⟩⟩

/-- The model-error every chat call raises in the strict-error fixture. -/
def errOfFail : String → ExcInfo := fun _ => ⟨"BadRequestError", "model gpt-x not found", true⟩

/-- A backend whose chat endpoint always raises a model error. -/
def envFailAll : Env := ⟨fun _ => none, fun _ _ _ _ => .error (errOfFail "")⟩

/-- A backend whose embedding endpoint returns the 2-dimensional vector
`[1, 0]` for every text. -/
noncomputable def envEmbed10 : Env :=
  ⟨fun texts => some (texts.map (fun _ => [(1 : ℝ), 0])),
    fun _ _ _ _ => .error ⟨"APIConnectionError", "boom", false⟩⟩

/-- A fresh session named `"s"`. -/
def stS0 : CoreState := new_session initState "s" defaultProfile "t0"

/-- The session record stored at `"s"` in `stS0`. -/
def sessS0 : SessionData := ⟨⟨"", "", "", [], [], "memory", ""⟩, [], [], 5, "t0"⟩

/-- Session `"s"` whose chunk store holds exactly `"I love the beach"`. -/
def stBeach : CoreState := add_memory_chunk stS0 "s" "I love the beach"

/-- Session `"s"` whose chunk store holds `"!!!"` (no alphanumeric tokens)
followed by `"abc"`, both added through `add_memory_chunk`. -/
def stPunct : CoreState := add_memory_chunk (add_memory_chunk stS0 "s" "!!!") "s" "abc"

/-- Session `"s"` whose chunk store holds a chunk with a 1-dimensional
cached embedding (mismatching the 2-dimensional query vector) and a chunk
with a matching 2-dimensional embedding. -/
noncomputable def zebraBucket : List MemoryChunk :=
  [⟨"zebra", some [(5 : ℝ)]⟩, ⟨"beach", some [(1 : ℝ), 0]⟩]

noncomputable def stZebra : CoreState :=
  { stS0 with memory_chunks := updKey stS0.memory_chunks "s" zebraBucket }

/-- Ten identical interview answers. -/
def ansTen : List String := ["a", "a", "a", "a", "a", "a", "a", "a", "a", "a"]

/-- The state after one `start_interview` and ten `answer_interview` calls
on a fresh session. -/
def stDone : CoreState := runAnswers "s" "t1" (start_interview stS0 "s").2 ansTen

/-- The summary text those ten answers produce. -/
def summaryTen : String :=
  joinNl (interviewSummaryLines (ansTen.map (fun a => ("t1", pyStrip a))))

/-! # Theorems -/

/-! ## Sorting lemmas -/

theorem length_insertScoreDesc {α β : Type} [LT α] [DecidableRel ((· < ·) : α → α → Prop)]
    (x : α × β) (l : List (α × β)) : (insertScoreDesc x l).length = l.length + 1 := by
  induction l with
  | nil => simp [insertScoreDesc]
  | cons y ys ih => by_cases h : y.1 < x.1 <;> simp [insertScoreDesc, h, ih]

theorem mem_insertScoreDesc {α β : Type} [LT α] [DecidableRel ((· < ·) : α → α → Prop)]
    (z x : α × β) (l : List (α × β)) : z ∈ insertScoreDesc x l ↔ z = x ∨ z ∈ l := by
  induction l with
  | nil => simp [insertScoreDesc]
  | cons y ys ih =>
    by_cases h : y.1 < x.1 <;> simp [insertScoreDesc, h, ih] <;> tauto

theorem length_foldl_insertScoreDesc {α β : Type} [LT α]
    [DecidableRel ((· < ·) : α → α → Prop)] (l acc : List (α × β)) :
    (l.foldl (fun acc x => insertScoreDesc x acc) acc).length = acc.length + l.length := by
  induction l generalizing acc with
  | nil => simp
  | cons x xs ih => simp [List.foldl_cons, ih, length_insertScoreDesc]; omega

theorem length_sortByScoreDesc {α β : Type} [LT α] [DecidableRel ((· < ·) : α → α → Prop)]
    (l : List (α × β)) : (sortByScoreDesc l).length = l.length := by
  simpa [sortByScoreDesc] using length_foldl_insertScoreDesc l []

theorem mem_foldl_insertScoreDesc {α β : Type} [LT α]
    [DecidableRel ((· < ·) : α → α → Prop)] (z : α × β) (l acc : List (α × β)) :
    z ∈ l.foldl (fun acc x => insertScoreDesc x acc) acc ↔ z ∈ acc ∨ z ∈ l := by
  induction l generalizing acc with
  | nil => simp
  | cons x xs ih => simp [List.foldl_cons, ih, mem_insertScoreDesc]; tauto

theorem mem_sortByScoreDesc {α β : Type} [LT α] [DecidableRel ((· < ·) : α → α → Prop)]
    (z : α × β) (l : List (α × β)) : z ∈ sortByScoreDesc l ↔ z ∈ l := by
  simpa [sortByScoreDesc] using mem_foldl_insertScoreDesc z l []

theorem sortByScoreDesc_ne_nil {α β : Type} [LT α] [DecidableRel ((· < ·) : α → α → Prop)]
    (l : List (α × β)) (h : l ≠ []) : sortByScoreDesc l ≠ [] := by
  intro hc
  have := length_sortByScoreDesc l
  rw [hc] at this
  exact h (List.eq_nil_of_length_eq_zero this.symm)

/-! ## Keyword-search lemmas -/

theorem keyword_search_eq (bucket : List MemoryChunk) (q : String) (k : ℕ) :
    _keyword_search bucket q k =
      if (_tokenize q).isEmpty then (bucket.take k).map (fun c => c.text)
      else if (keywordScored bucket q).isEmpty then (bucket.take k).map (fun c => c.text)
      else (((sortByScoreDesc (keywordScored bucket q)).take k).map Prod.snd).filter
        (fun t => !t.isEmpty) := rfl

theorem mem_keyword_scored (bucket : List MemoryChunk) (q : String) (z : ℕ × String)
    (hz : z ∈ keywordScored bucket q) : z.2 ≠ "" := by
  rcases List.mem_filterMap.mp hz with ⟨c, _, hc⟩
  by_cases h1 : c.text = ""
  · rw [if_pos h1] at hc; cases hc
  · rw [if_neg h1] at hc
    by_cases h2 : (_tokenize c.text).isEmpty = true
    · rw [if_pos h2] at hc; cases hc
    · rw [if_neg h2] at hc
      have h3 := Option.some.inj hc
      rw [← h3]
      exact h1

theorem keyword_length_le (bucket : List MemoryChunk) (q : String) (k : ℕ) :
    (_keyword_search bucket q k).length ≤ k := by
  rw [keyword_search_eq]
  by_cases h1 : (_tokenize q).isEmpty = true
  · rw [if_pos h1]; simp [List.length_take]
  · rw [if_neg h1]
    by_cases h2 : (keywordScored bucket q).isEmpty = true
    · rw [if_pos h2]; simp [List.length_take]
    · rw [if_neg h2]
      calc _ ≤ ((List.take k (sortByScoreDesc (keywordScored bucket q))).map Prod.snd).length :=
              List.length_filter_le _ _
        _ ≤ k := by simp [List.length_take]

theorem keyword_ne_nil (bucket : List MemoryChunk) (q : String) (k : ℕ)
    (hb : bucket ≠ []) (hk : 1 ≤ k) : _keyword_search bucket q k ≠ [] := by
  have htk : bucket.take k ≠ [] := by
    simp [List.take_eq_nil_iff, hb]
    omega
  rw [keyword_search_eq]
  by_cases h1 : (_tokenize q).isEmpty = true
  · rw [if_pos h1]
    simpa [List.map_eq_nil_iff] using htk
  · rw [if_neg h1]
    by_cases h2 : (keywordScored bucket q).isEmpty = true
    · rw [if_pos h2]
      simpa [List.map_eq_nil_iff] using htk
    · rw [if_neg h2]
      have hsn : sortByScoreDesc (keywordScored bucket q) ≠ [] :=
        sortByScoreDesc_ne_nil _ (by simpa [List.isEmpty_iff] using h2)
      have htake : (sortByScoreDesc (keywordScored bucket q)).take k ≠ [] := by
        simp [List.take_eq_nil_iff, hsn]
        omega
      have hall : ∀ t ∈ ((sortByScoreDesc (keywordScored bucket q)).take k).map Prod.snd,
          !t.isEmpty := by
        intro t ht
        rcases List.mem_map.mp ht with ⟨z, hzmem, hzt⟩
        have hz : z ∈ keywordScored bucket q :=
          (mem_sortByScoreDesc z _).mp (List.mem_of_mem_take hzmem)
        have h3 := mem_keyword_scored bucket q z hz
        rw [← hzt]
        simp only [Bool.not_eq_true', Bool.eq_false_iff, ne_eq, String.isEmpty_iff]
        exact h3
      rw [List.filter_eq_self.mpr hall]
      intro hc
      exact htake (List.map_eq_nil_iff.mp hc)

/-! ## Embedding-path lemmas -/

theorem length_assignEmbeds (b : List MemoryChunk) (es : List (List ℝ)) :
    (assignEmbeds b es).length = b.length := by
  induction b generalizing es with
  | nil => simp [assignEmbeds]
  | cons c rest ih =>
    by_cases h : (c.embedding.isNone && !c.text.isEmpty) = true
    · cases es with
      | nil => simp [assignEmbeds, h, ih]
      | cons e es' => simp [assignEmbeds, h, ih]
    · simp [assignEmbeds, h, ih]

theorem mem_assignEmbeds_text (b : List MemoryChunk) (es : List (List ℝ))
    (c' : MemoryChunk) (h : c' ∈ assignEmbeds b es) : ∃ c ∈ b, c'.text = c.text := by
  induction b generalizing es with
  | nil => simp [assignEmbeds] at h
  | cons c rest ih =>
    by_cases hc : (c.embedding.isNone && !c.text.isEmpty) = true
    · cases es with
      | nil =>
        simp [assignEmbeds, hc] at h
        rcases h with h | h
        · exact ⟨c, List.mem_cons_self c rest, by rw [h]⟩
        · rcases ih [] h with ⟨d, hd, hdt⟩
          exact ⟨d, List.mem_cons_of_mem c hd, hdt⟩
      | cons e es' =>
        simp [assignEmbeds, hc] at h
        rcases h with h | h
        · exact ⟨c, List.mem_cons_self c rest, by rw [h]⟩
        · rcases ih es' h with ⟨d, hd, hdt⟩
          exact ⟨d, List.mem_cons_of_mem c hd, hdt⟩
    · simp [assignEmbeds, hc] at h
      rcases h with h | h
      · exact ⟨c, List.mem_cons_self c rest, by rw [h]⟩
      · rcases ih es h with ⟨d, hd, hdt⟩
        exact ⟨d, List.mem_cons_of_mem c hd, hdt⟩

theorem length_embed_chunks (cfg : Config) (env : Env) (b : List MemoryChunk) :
    (_embed_chunks cfg env b).length = b.length := by
  unfold _embed_chunks
  by_cases h1 : (b.filter (fun c => c.embedding.isNone && !c.text.isEmpty)).isEmpty = true
  · rw [if_pos h1]
  · rw [if_neg h1]
    rcases h2 : _embed_texts cfg env ((b.filter
        (fun c => c.embedding.isNone && !c.text.isEmpty)).map (fun c => c.text)) with _ | es
    · rw [h2]
    · cases es with
      | nil => rw [h2]
      | cons e es' => rw [h2]; exact length_assignEmbeds b (e :: es')

theorem mem_embed_chunks_text (cfg : Config) (env : Env) (b : List MemoryChunk)
    (c' : MemoryChunk) (h : c' ∈ _embed_chunks cfg env b) : ∃ c ∈ b, c'.text = c.text := by
  unfold _embed_chunks at h
  by_cases h1 : (b.filter (fun c => c.embedding.isNone && !c.text.isEmpty)).isEmpty = true
  · rw [if_pos h1] at h
    exact ⟨c', h, rfl⟩
  · rw [if_neg h1] at h
    rcases h2 : _embed_texts cfg env ((b.filter
        (fun c => c.embedding.isNone && !c.text.isEmpty)).map (fun c => c.text)) with _ | es
    · rw [h2] at h; exact ⟨c', h, rfl⟩
    · cases es with
      | nil => rw [h2] at h; exact ⟨c', h, rfl⟩
      | cons e es' => rw [h2] at h; exact mem_assignEmbeds_text b (e :: es') c' h

theorem length_embedMissing (cfg : Config) (env : Env) (b : List MemoryChunk) :
    (embedMissing cfg env b).length = b.length := by
  unfold embedMissing
  by_cases h : (b.any (fun c => c.embedding.isNone)) = true
  · rw [if_pos h]; exact length_embed_chunks cfg env b
  · rw [if_neg h]

theorem mem_embedMissing_text (cfg : Config) (env : Env) (b : List MemoryChunk)
    (c' : MemoryChunk) (h : c' ∈ embedMissing cfg env b) : ∃ c ∈ b, c'.text = c.text := by
  unfold embedMissing at h
  by_cases h1 : (b.any (fun c => c.embedding.isNone)) = true
  · rw [if_pos h1] at h; exact mem_embed_chunks_text cfg env b c' h
  · rw [if_neg h1] at h; exact ⟨c', h, rfl⟩

theorem mem_embeddingScored (qVec : List ℝ) (b : List MemoryChunk) (z : ℝ × String)
    (h : z ∈ embeddingScored qVec b) : ∃ c ∈ b, z.2 = c.text := by
  rcases List.mem_filterMap.mp h with ⟨c, hc, hfc⟩
  rcases he : c.embedding with _ | e
  · rw [he] at hfc; cases hfc
  · rw [he] at hfc
    have := Option.some.inj hfc
    exact ⟨c, hc, by rw [← this]⟩

/-! ## Search unfolding -/

theorem search_spec_split (cfg : Config) (env : Env) (st : CoreState) (sid query : String)
    (k : ℕ) (hq : ¬(_prep_chunk_text query 400 = ""))
    (hb : ¬(((st.memory_chunks sid).getD []).isEmpty = true)) :
    search_memory_chunks cfg env st sid query k =
      match qEmbedsOf cfg env (_prep_chunk_text query 400) with
      | some (qVec :: _) =>
        let bucket1 := embedMissing cfg env ((st.memory_chunks sid).getD [])
        let st1 := { st with memory_chunks := updKey st.memory_chunks sid bucket1 }
        let scored := embeddingScored qVec bucket1
        if scored.isEmpty then
          (_keyword_search bucket1 (_prep_chunk_text query 400) k, st1)
        else
          ((((sortByScoreDesc scored).take k).map Prod.snd).filter (fun t => !t.isEmpty),
            st1)
      | _ =>
        (_keyword_search ((st.memory_chunks sid).getD []) (_prep_chunk_text query 400) k,
          st) := by
  unfold search_memory_chunks
  rw [if_neg hq, if_neg hb]

/-- C1 (amended): for every context whose chunk store is non-empty (its
chunks having non-empty text, as `add_memory_chunk` guarantees), every
query whose normalized form is non-empty, and every `top_k ≥ 1`,
`search_memory_chunks` returns at most `top_k` results and never returns
an empty list. -/
theorem search_bounded_nonempty (cfg : Config) (env : Env) (st : CoreState)
    (sid query : String) (k : ℕ)
    (hq : _prep_chunk_text query 400 ≠ "")
    (hb : (st.memory_chunks sid).getD [] ≠ [])
    (htext : ∀ c ∈ (st.memory_chunks sid).getD [], c.text ≠ "")
    (hk : 1 ≤ k) :
    (search_memory_chunks cfg env st sid query k).1.length ≤ k ∧
      (search_memory_chunks cfg env st sid query k).1 ≠ [] := by
  rw [search_spec_split cfg env st sid query k hq (by simpa [List.isEmpty_iff] using hb)]
  rcases hqe : qEmbedsOf cfg env (_prep_chunk_text query 400) with _ | qs
  · dsimp only
    exact ⟨keyword_length_le _ _ _, keyword_ne_nil _ _ _ hb hk⟩
  · cases qs with
    | nil =>
      dsimp only
      exact ⟨keyword_length_le _ _ _, keyword_ne_nil _ _ _ hb hk⟩
    | cons qVec qrest =>
      dsimp only
      set bucket1 := embedMissing cfg env ((st.memory_chunks sid).getD []) with hb1
      have hb1ne : bucket1 ≠ [] := by
        intro hc
        have := length_embedMissing cfg env ((st.memory_chunks sid).getD [])
        rw [← hb1, hc] at this
        exact hb (List.eq_nil_of_length_eq_zero this.symm)
      have hb1text : ∀ c' ∈ bucket1, c'.text ≠ "" := by
        intro c' hc'
        rcases mem_embedMissing_text cfg env _ c' hc' with ⟨c, hcmem, hct⟩
        rw [hct]
        exact htext c hcmem
      by_cases hsc : (embeddingScored qVec bucket1).isEmpty = true
      · rw [if_pos hsc]
        exact ⟨keyword_length_le _ _ _, keyword_ne_nil _ _ _ hb1ne hk⟩
      · rw [if_neg hsc]
        have hsn : sortByScoreDesc (embeddingScored qVec bucket1) ≠ [] :=
          sortByScoreDesc_ne_nil _ (by simpa [List.isEmpty_iff] using hsc)
        have hall : ∀ t ∈ ((sortByScoreDesc (embeddingScored qVec bucket1)).take k).map
            Prod.snd, !t.isEmpty := by
          intro t ht
          rcases List.mem_map.mp ht with ⟨z, hzmem, hzt⟩
          have hz : z ∈ embeddingScored qVec bucket1 :=
            (mem_sortByScoreDesc z _).mp (List.mem_of_mem_take hzmem)
          rcases mem_embeddingScored qVec bucket1 z hz with ⟨c, hcmem, hct⟩
          rw [← hzt]
          simp only [Bool.not_eq_true', Bool.eq_false_iff, ne_eq, String.isEmpty_iff]
          rw [hct]
          exact hb1text c hcmem
        constructor
        · calc _ ≤ (((sortByScoreDesc (embeddingScored qVec bucket1)).take k).map
                Prod.snd).length := List.length_filter_le _ _
            _ ≤ k := by simp [List.length_take]
        · rw [List.filter_eq_self.mpr hall]
          have htake : (sortByScoreDesc (embeddingScored qVec bucket1)).take k ≠ [] := by
            simp [List.take_eq_nil_iff, hsn]
            omega
          intro hc
          exact htake (List.map_eq_nil_iff.mp hc)

/-- Witness for C1: the store holding exactly "I love the beach", query
"beach", `top_k = 6`. -/
theorem search_bounded_nonempty_witness :
    (search_memory_chunks cfgOnline envDummy stBeach "s" "beach" 6).1.length ≤ 6 ∧
      (search_memory_chunks cfgOnline envDummy stBeach "s" "beach" 6).1 ≠ [] := by
  have hmap : ((stBeach.memory_chunks "s").getD []).map (fun c => c.text) =
      ["I love the beach"] := by decide
  have hb : (stBeach.memory_chunks "s").getD [] ≠ [] := by
    intro h
    rw [h] at hmap
    cases hmap
  have ht : ∀ c ∈ (stBeach.memory_chunks "s").getD [], c.text ≠ "" := by
    intro c hc
    have hm : c.text ∈ ((stBeach.memory_chunks "s").getD []).map (fun c => c.text) :=
      List.mem_map_of_mem _ hc
    rw [hmap] at hm
    simp at hm
    rw [hm]
    decide
  exact search_bounded_nonempty cfgOnline envDummy stBeach "s" "beach" 6 (by decide) hb ht
    (by norm_num)

/-- Counterexample for C1 as stated: the beach store is non-empty, yet the
query `""` (whose normalized form is empty) yields the empty result list. -/
theorem search_empty_query_counterexample :
    ((stBeach.memory_chunks "s").getD []).length = 1 ∧
      (search_memory_chunks cfgOnline envDummy stBeach "s" "" 6).1 = [] := by
  exact ⟨rfl, rfl⟩

/-! ## C2: keyword-fallback semantics -/

theorem filterMap_if_eq_map_filter {α β : Type} (p : α → Bool) (g : α → β) (l : List α) :
    l.filterMap (fun a => if p a then some (g a) else none) = (l.filter p).map g := by
  induction l with
  | nil => rfl
  | cons x xs ih =>
    by_cases h : p x
    · simp [List.filterMap_cons, List.filter_cons, h, ih]
    · simp [List.filterMap_cons, List.filter_cons, h, ih]

theorem keywordScored_eq_filter (bucket : List MemoryChunk) (q : String) :
    keywordScored bucket q =
      (bucket.filter (fun c => !c.text.isEmpty && !(_tokenize c.text).isEmpty)).map
        (fun c => (chunkScore (_tokenize q) q c.text, c.text)) := by
  have hf : (fun (c : MemoryChunk) =>
      if c.text = "" then none
      else if (_tokenize c.text).isEmpty then none
      else some (chunkScore (_tokenize q) q c.text, c.text)) =
      (fun (c : MemoryChunk) =>
        if (!c.text.isEmpty && !(_tokenize c.text).isEmpty) then
          some (chunkScore (_tokenize q) q c.text, c.text)
        else none) := by
    funext c
    by_cases h1 : c.text = ""
    · rw [if_pos h1, h1, if_neg (by decide)]
    · have he : c.text.isEmpty = false := by
        rw [Bool.eq_false_iff]
        simpa [String.isEmpty_iff] using h1
      by_cases h2 : (_tokenize c.text).isEmpty = true
      · rw [if_neg h1, if_pos h2, if_neg (by simp [h2])]
      · have he2 : (_tokenize c.text).isEmpty = false := by
          rw [Bool.eq_false_iff]
          exact h2
        rw [if_neg h1, if_neg h2, if_pos (by simp [he, he2])]
  unfold keywordScored
  rw [hf, filterMap_if_eq_map_filter]

/-- C2 (amended): in the keyword-fallback path, every chunk with non-empty
text and at least one alphanumeric token is scored (token-set overlap plus
the substring bonus); chunks without tokens are excluded; the scored
chunks are stable-sorted by score descending (ties keep insertion order);
when no chunk is scored at all — in particular when the query has no
tokens — the first `top_k` chunks in insertion order are returned.  The
beach example behaves as stated. -/
theorem keyword_fallback_semantics :
    (∀ (bucket : List MemoryChunk) (q : String) (k : ℕ),
        _keyword_search bucket q k = keyword_search_spec bucket q k) ∧
      (search_memory_chunks cfgOffline envDummy stBeach "s" "beach" 6).1 =
        ["I love the beach"] := by
  constructor
  · intro bucket q k
    rw [keyword_search_eq]
    unfold keyword_search_spec
    rw [keywordScored_eq_filter]
  · rfl

/-- Counterexample for C2 as stated: in the store `["!!!", "abc"]` (both
chunks added through `add_memory_chunk`) with query `"x"`, every chunk
scores 0, yet the code returns `["abc"]` — not the first `top_k` chunks in
insertion order — because the token-less chunk `"!!!"` is never scored. -/
theorem keyword_claimed_counterexample :
    ((stPunct.memory_chunks "s").getD []).map (fun c => c.text) = ["!!!", "abc"] ∧
      (keywordScored ((stPunct.memory_chunks "s").getD []) "x").all (fun p => p.1 = 0) ∧
      _keyword_search ((stPunct.memory_chunks "s").getD []) "x" 2 = ["abc"] ∧
      keyword_search_claimed ((stPunct.memory_chunks "s").getD []) "x" 2 = ["!!!", "abc"] ∧
      _keyword_search ((stPunct.memory_chunks "s").getD []) "x" 2 ≠
        keyword_search_claimed ((stPunct.memory_chunks "s").getD []) "x" 2 := by
  refine ⟨by decide, by decide, by decide, by decide, by decide⟩

/-! ## C9: cosine similarity -/

theorem dotOf_comm (a b : List ℝ) : dotOf a b = dotOf b a := by
  unfold dotOf
  induction a generalizing b with
  | nil => cases b <;> simp
  | cons x xs ih =>
    cases b with
    | nil => simp
    | cons y ys => simp [List.zip_cons_cons, ih ys, mul_comm]

theorem cosine_degenerate (a b : List ℝ) (h : a = [] ∨ b = [] ∨ a.length ≠ b.length) :
    _cosine_similarity a b = 0 := by
  unfold _cosine_similarity
  have hg : (a.isEmpty || b.isEmpty || a.length != b.length) = true := by
    rcases h with h | h | h <;> simp [h]
  rw [if_pos hg]

theorem cosine_zero_norm (a b : List ℝ) (h : normOf a = 0 ∨ normOf b = 0) :
    _cosine_similarity a b = 0 := by
  unfold _cosine_similarity
  by_cases hg : (a.isEmpty || b.isEmpty || a.length != b.length) = true
  · rw [if_pos hg]
  · rw [if_neg hg, if_pos h]

theorem cosine_formula (a b : List ℝ) (ha : a ≠ []) (hb : b ≠ [])
    (hlen : a.length = b.length) (hna : normOf a ≠ 0) (hnb : normOf b ≠ 0) :
    _cosine_similarity a b = dotOf a b / (normOf a * normOf b) := by
  unfold _cosine_similarity
  have hg : (a.isEmpty || b.isEmpty || a.length != b.length) = false := by
    simp [List.isEmpty_iff, ha, hb, hlen]
  rw [if_neg (by rw [hg]; simp), if_neg (not_or.mpr ⟨hna, hnb⟩)]

theorem cosine_symm (a b : List ℝ) :
    _cosine_similarity a b = _cosine_similarity b a := by
  by_cases hd : a = [] ∨ b = [] ∨ a.length ≠ b.length
  · have h1 := cosine_degenerate a b hd
    have h2 := cosine_degenerate b a (by tauto)
    rw [h1, h2]
  · push_neg at hd
    rcases hd with ⟨ha, hb, hlen⟩
    by_cases hn : normOf a = 0 ∨ normOf b = 0
    · rw [cosine_zero_norm a b hn, cosine_zero_norm b a (Or.symm hn)]
    · push_neg at hn
      rw [cosine_formula a b ha hb hlen hn.1 hn.2,
        cosine_formula b a hb ha hlen.symm hn.2 hn.1, dotOf_comm, mul_comm]

/-- C9: cosine similarity is symmetric; it returns 0 when either input is
empty, when the lengths mismatch, and when either norm is 0 (in
particular for any zero vector); otherwise it equals
`dot(a,b) / (|a| * |b|)`. -/
theorem cosine_similarity_spec :
    (∀ a b : List ℝ, _cosine_similarity a b = _cosine_similarity b a) ∧
      (∀ a b : List ℝ, a = [] ∨ b = [] ∨ a.length ≠ b.length →
        _cosine_similarity a b = 0) ∧
      (∀ a b : List ℝ, normOf a = 0 ∨ normOf b = 0 → _cosine_similarity a b = 0) ∧
      (∀ a b : List ℝ, a ≠ [] → b ≠ [] → a.length = b.length → normOf a ≠ 0 →
        normOf b ≠ 0 → _cosine_similarity a b = dotOf a b / (normOf a * normOf b)) :=
  ⟨cosine_symm, cosine_degenerate, cosine_zero_norm, cosine_formula⟩

/-- Witness for C9: the zero vector `[0, 0]` against `[1, 2]` scores 0. -/
theorem cosine_similarity_spec_witness :
    _cosine_similarity [(0 : ℝ), 0] [1, 2] = 0 :=
  cosine_similarity_spec.2.2.1 [0, 0] [1, 2] (Or.inl (by norm_num [normOf]))

/-! ## C7: embedding-path handling of missing/mismatched embeddings -/

theorem embeddingScored_skips_missing (qVec : List ℝ) (bucket : List MemoryChunk) :
    embeddingScored qVec bucket =
      embeddingScored qVec (bucket.filter (fun c => !c.embedding.isNone)) := by
  induction bucket with
  | nil => rfl
  | cons c rest ih =>
    rcases he : c.embedding with _ | e
    · simpa [embeddingScored, List.filterMap_cons, List.filter_cons, he,
        Option.isNone] using ih
    · simpa [embeddingScored, List.filterMap_cons, List.filter_cons, he,
        Option.isNone] using ih

theorem embeddingScored_nil_iff (qVec : List ℝ) (bucket : List MemoryChunk) :
    embeddingScored qVec bucket = [] ↔ ∀ c ∈ bucket, c.embedding = none := by
  induction bucket with
  | nil => simp [embeddingScored]
  | cons c rest ih =>
    rcases he : c.embedding with _ | e
    · simpa [embeddingScored, List.filterMap_cons, he] using ih
    · simp [embeddingScored, List.filterMap_cons, he]

theorem cosine_mismatch (qVec e : List ℝ) (h : qVec.length ≠ e.length) :
    _cosine_similarity qVec e = 0 :=
  cosine_degenerate qVec e (Or.inr (Or.inr h))

theorem normOf_unit10 : normOf [(1 : ℝ), 0] = 1 := by
  norm_num [normOf]

theorem cosine_unit10 : _cosine_similarity [(1 : ℝ), 0] [1, 0] = 1 := by
  rw [cosine_formula [(1 : ℝ), 0] [1, 0] (by simp) (by simp) rfl
    (by rw [normOf_unit10]; norm_num) (by rw [normOf_unit10]; norm_num)]
  rw [normOf_unit10]
  norm_num [dotOf]

theorem embScored_zebra :
    embeddingScored [(1 : ℝ), 0] zebraBucket = [((0 : ℝ), "zebra"), ((1 : ℝ), "beach")] := by
  unfold zebraBucket embeddingScored
  simp only [List.filterMap_cons, List.filterMap_nil]
  rw [cosine_mismatch [(1 : ℝ), 0] [5] (by norm_num), cosine_unit10]

theorem insertScoreDesc_nil {α β : Type} [LT α] [DecidableRel ((· < ·) : α → α → Prop)]
    (x : α × β) : insertScoreDesc x [] = [x] := rfl

theorem insertScoreDesc_cons {α β : Type} [LT α] [DecidableRel ((· < ·) : α → α → Prop)]
    (x y : α × β) (ys : List (α × β)) :
    insertScoreDesc x (y :: ys) =
      if y.1 < x.1 then x :: y :: ys else y :: insertScoreDesc x ys := rfl

theorem sort_zebra :
    sortByScoreDesc [((0 : ℝ), "zebra"), ((1 : ℝ), "beach")] =
      [((1 : ℝ), "beach"), ((0 : ℝ), "zebra")] := by
  unfold sortByScoreDesc
  simp only [List.foldl_cons, List.foldl_nil]
  rw [insertScoreDesc_nil, insertScoreDesc_cons,
    if_pos (by norm_num : (((0 : ℝ), "zebra") : ℝ × String).1 < (((1 : ℝ), "beach") : ℝ × String).1)]

theorem search_zebra_run :
    (search_memory_chunks cfgOnline envEmbed10 stZebra "s" "zebra" 6).1 =
      ["beach", "zebra"] := by
  have hbk : (stZebra.memory_chunks "s").getD [] = zebraBucket := rfl
  have hb : ¬(((stZebra.memory_chunks "s").getD []).isEmpty = true) := by
    rw [hbk]
    unfold zebraBucket
    simp
  rw [search_spec_split cfgOnline envEmbed10 stZebra "s" "zebra" 6 (by decide) hb]
  have hqe : qEmbedsOf cfgOnline envEmbed10 (_prep_chunk_text "zebra" 400) =
      some [[(1 : ℝ), 0]] := rfl
  rw [hqe]
  dsimp only
  have hem : embedMissing cfgOnline envEmbed10 ((stZebra.memory_chunks "s").getD []) =
      zebraBucket := by
    rw [hbk]
    unfold embedMissing
    rw [if_neg]
    unfold zebraBucket
    simp [Option.isNone]
  rw [hem, embScored_zebra]
  rw [if_neg (by simp)]
  rw [sort_zebra]
  rfl

/-- C7 (amended): during search, a chunk whose embedding is missing is
skipped by the embedding scoring entirely (it contributes nothing to the
scored list); a chunk whose embedding mismatches the query vectorʼs
dimensionality is nevertheless passed to `_cosine_similarity`, whose guard
scores it 0 — it stays in the embedding ranking rather than degrading to
keyword scoring; the keyword path is used (for the whole query) exactly
when no chunk yields an embedding score. -/
theorem embedding_scoring_spec :
    (∀ (qVec : List ℝ) (bucket : List MemoryChunk),
        embeddingScored qVec bucket =
          embeddingScored qVec (bucket.filter (fun c => !c.embedding.isNone))) ∧
      (∀ qVec e : List ℝ, qVec.length ≠ e.length → _cosine_similarity qVec e = 0) ∧
      (∀ (qVec : List ℝ) (bucket : List MemoryChunk),
        embeddingScored qVec bucket = [] ↔ ∀ c ∈ bucket, c.embedding = none) ∧
      (search_memory_chunks cfgOnline envEmbed10 stZebra "s" "zebra" 6).1 =
        ["beach", "zebra"] :=
  ⟨embeddingScored_skips_missing, cosine_mismatch, embeddingScored_nil_iff,
    search_zebra_run⟩

/-- Witness for C7: a 2-dimensional query vector against a 1-dimensional
chunk embedding scores 0. -/
theorem embedding_scoring_spec_witness :
    _cosine_similarity [(1 : ℝ), 0] [5] = 0 :=
  embedding_scoring_spec.2.1 [(1 : ℝ), 0] [5] (by norm_num)

/-- Counterexample for C7 as stated: the chunk `"zebra"` carries a cached
1-dimensional embedding while the query embeds to `[1, 0]`; the code
*does* score it by the embedding comparison (it appears in the scored list
with cosine 0) and returns it inside the embedding ranking, whereas
keyword scoring of the same store and query would rank `"zebra"` first. -/
theorem embedding_mismatch_counterexample :
    ((0 : ℝ), "zebra") ∈ embeddingScored [(1 : ℝ), 0] zebraBucket ∧
      (search_memory_chunks cfgOnline envEmbed10 stZebra "s" "zebra" 6).1 =
        ["beach", "zebra"] ∧
      _keyword_search zebraBucket "zebra" 6 = ["zebra", "beach"] := by
  refine ⟨?_, search_zebra_run, by decide⟩
  rw [embScored_zebra]
  simp

/-! ## C6: response length for "simple" questions -/

/-- C6 (amended): for every preferred length other than `"verbose"`,
`_select_response_length` on a `"simple"` question returns the bucket
`"brief"`; when the profile prefers `"verbose"` the post-adjustment
forces the bucket to `"moderate"` instead. -/
theorem select_length_simple :
    (∀ (preferred : String) (rnd : RandSLR), preferred ≠ "verbose" →
        (_select_response_length "simple" preferred rnd).1 = "brief") ∧
      (∀ rnd : RandSLR, (_select_response_length "simple" "verbose" rnd).1 = "moderate") := by
  constructor
  · intro preferred rnd hp
    unfold _select_response_length
    simp [hp]
  · intro rnd
    unfold _select_response_length
    simp

/-- Witness for C6: preferred length `"brief"` keeps the bucket `"brief"`,
preferred `"verbose"` yields `"moderate"`. -/
theorem select_length_simple_witness :
    (_select_response_length "simple" "brief" rnd0).1 = "brief" ∧
      (_select_response_length "simple" "verbose" rnd0).1 = "moderate" :=
  ⟨select_length_simple.1 "brief" rnd0 (by decide), select_length_simple.2 rnd0⟩

/-- Counterexample for C6 as stated: with preferred length `"verbose"`, a
`"simple"` question is bumped to `"moderate"`, not `"brief"`. -/
theorem select_length_simple_counterexample :
    (_select_response_length "simple" "verbose" rnd0).1 = "moderate" ∧
      (_select_response_length "simple" "verbose" rnd0).1 ≠ "brief" := by
  refine ⟨rfl, by decide⟩

/-! ## Dictionary lemmas -/

theorem updKey_same {β : Type} (f : String → Option β) (k : String) (v : β) :
    updKey f k v k = some v := by simp [updKey]

theorem updKey_updKey {β : Type} (f : String → Option β) (k : String) (v v' : β) :
    updKey (updKey f k v) k v' = updKey f k v' := by
  funext x
  by_cases h : x = k <;> simp [updKey, h]

theorem updKey_self {β : Type} (f : String → Option β) (k : String) (v : β)
    (h : f k = some v) : updKey f k v = f := by
  funext x
  by_cases hx : x = k
  · simp [updKey, hx, h.symm]
  · simp [updKey, hx]

/-! ## C10: start_interview on an in-progress interview -/

/-- C10: calling `start_interview` on a context whose interview is already
in progress silently resets it — the cursor returns to 0, the collected
answers are discarded without touching the memories or the chunk store,
and the first question is returned again. -/
theorem start_interview_resets (st : CoreState) (sid : String) (entry : InterviewEntry)
    (s : SessionData) (hin : st.interviews sid = some entry)
    (hs : st.sessions sid = some s) :
    (start_interview st sid).1 = (true, some
        "When you picture them right now, what’s the very first scene that comes to mind?") ∧
      (start_interview st sid).2.interviews sid = some ⟨0, []⟩ ∧
      (start_interview st sid).2.sessions = st.sessions ∧
      (start_interview st sid).2.memory_chunks = st.memory_chunks ∧
      (start_interview st sid).2.conversations = st.conversations := by
  unfold start_interview
  rw [if_neg (by simp [hs])]
  exact ⟨rfl, updKey_same st.interviews sid ⟨0, []⟩, rfl, rfl, rfl⟩

/-- Witness for C10: a session whose interview has just been started. -/
theorem start_interview_resets_witness :
    (start_interview (start_interview stS0 "s").2 "s").1 = (true, some
        "When you picture them right now, what’s the very first scene that comes to mind?") ∧
      (start_interview (start_interview stS0 "s").2 "s").2.interviews "s" = some ⟨0, []⟩ ∧
      (start_interview (start_interview stS0 "s").2 "s").2.sessions =
        (start_interview stS0 "s").2.sessions ∧
      (start_interview (start_interview stS0 "s").2 "s").2.memory_chunks =
        (start_interview stS0 "s").2.memory_chunks ∧
      (start_interview (start_interview stS0 "s").2 "s").2.conversations =
        (start_interview stS0 "s").2.conversations :=
  start_interview_resets (start_interview stS0 "s").2 "s" ⟨0, []⟩
    ⟨⟨"", "", "", [], [], "memory", ""⟩, [], [], 5, "t0"⟩ rfl rfl

/-! ## C5: interview completion -/

theorem add_memory_chunk_empty (st : CoreState) (sid text : String)
    (h : _prep_chunk_text text 600 = "") : add_memory_chunk st sid text = st := by
  unfold add_memory_chunk
  rw [if_pos h]

theorem add_memory_chunk_pos (st : CoreState) (sid text : String)
    (bucket : List MemoryChunk) (h : ¬(_prep_chunk_text text 600 = ""))
    (hmc : st.memory_chunks sid = some bucket) :
    add_memory_chunk st sid text =
      { st with memory_chunks := updKey st.memory_chunks sid (bucket ++ [⟨_prep_chunk_text text 600, none⟩]) } := by
  unfold add_memory_chunk
  rw [if_neg h, hmc]
  rfl

theorem foldl_chunks (lines : List String) (st : CoreState) (sid : String)
    (bucket : List MemoryChunk) (hmc : st.memory_chunks sid = some bucket) :
    lines.foldl (fun acc line =>
        if pyStrip line = "" || strStartsWith (pyLower (pyStrip line)) "interview summary"
        then acc
        else add_memory_chunk acc sid (pyStrip line)) st =
      { st with memory_chunks :=
          updKey st.memory_chunks sid (bucket ++ chunkAppend lines) } := by
  induction lines generalizing st bucket with
  | nil =>
    simp only [List.foldl_nil, chunkAppend, List.filterMap_nil, List.append_nil]
    rw [updKey_self st.memory_chunks sid bucket hmc]
  | cons line rest ih =>
    simp only [List.foldl_cons]
    by_cases hg : (pyStrip line = "" ||
        strStartsWith (pyLower (pyStrip line)) "interview summary") = true
    · rw [if_pos hg, ih st bucket hmc]
      have hchunk : chunkAppend (line :: rest) = chunkAppend rest := by
        simp only [chunkAppend, List.filterMap_cons]
        rw [if_pos hg]
      rw [hchunk]
    · rw [if_neg hg]
      by_cases hp : _prep_chunk_text (pyStrip line) 600 = ""
      · rw [add_memory_chunk_empty st sid (pyStrip line) hp, ih st bucket hmc]
        have hchunk : chunkAppend (line :: rest) = chunkAppend rest := by
          simp only [chunkAppend, List.filterMap_cons]
          rw [if_neg hg, if_pos hp]
        rw [hchunk]
      · rw [add_memory_chunk_pos st sid (pyStrip line) bucket hp hmc]
        rw [ih _ (bucket ++ [⟨_prep_chunk_text (pyStrip line) 600, none⟩])
          (updKey_same st.memory_chunks sid _)]
        have hchunk : chunkAppend (line :: rest) =
            ⟨_prep_chunk_text (pyStrip line) 600, none⟩ :: chunkAppend rest := by
          simp only [chunkAppend, List.filterMap_cons]
          rw [if_neg hg, if_neg hp]
        rw [hchunk, updKey_updKey]
        simp [List.append_assoc]

theorem answer_step (st : CoreState) (sid now a : String) (idx : ℕ)
    (answers : List (String × String)) (h : st.interviews sid = some ⟨idx, answers⟩)
    (hidx : idx + 1 < 10) :
    answer_interview st sid now a =
      ((true, some (QS.getD (idx + 1) "")),
        { st with interviews :=
            updKey st.interviews sid ⟨idx + 1, answers ++ [(now, pyStrip a)]⟩ }) := by
  unfold answer_interview
  split
  · rename_i heq
    rw [h] at heq
    cases heq
  · rename_i entry heq
    rw [h] at heq
    injection heq with heq'
    subst heq'
    dsimp only
    rw [if_neg (by rw [show QS.length = 10 from rfl]; omega)]

theorem answer_final (st : CoreState) (sid now a : String) (idx : ℕ)
    (answers : List (String × String)) (s : SessionData) (bucket : List MemoryChunk)
    (h : st.interviews sid = some ⟨idx, answers⟩) (hidx : 10 ≤ idx + 1)
    (hs : st.sessions sid = some s) (hmc : st.memory_chunks sid = some bucket) :
    answer_interview st sid now a =
      ((true, some (joinNl (interviewSummaryLines (answers ++ [(now, pyStrip a)])))),
        { st with
          sessions := updKey st.sessions sid { s with memories := s.memories ++
            [⟨pyStrip (joinNl (interviewSummaryLines (answers ++ [(now, pyStrip a)]))),
              "interview-summary", now⟩] },
          interviews := delKey st.interviews sid,
          memory_chunks := updKey st.memory_chunks sid
            (bucket ++ chunkAppend (interviewSummaryLines (answers ++ [(now, pyStrip a)]))) }) := by
  unfold answer_interview
  split
  · rename_i heq
    rw [h] at heq
    cases heq
  · rename_i entry heq
    rw [h] at heq
    injection heq with heq'
    subst heq'
    dsimp only
    rw [if_pos (by rw [show QS.length = 10 from rfl]; omega)]
    unfold add_text_memory
    split
    · rename_i heq2
      rw [hs] at heq2
      cases heq2
    · rename_i s2 heq2
      rw [hs] at heq2
      injection heq2 with heq2'
      subst heq2'
      dsimp only
      rw [if_neg (by decide)]
      rw [foldl_chunks (interviewSummaryLines (answers ++ [(now, pyStrip a)]))
        { st with sessions := updKey st.sessions sid { s with memories := s.memories ++ [⟨pyStrip (joinNl (interviewSummaryLines (answers ++ [(now, pyStrip a)]))), "interview-summary", now⟩] } }
        sid bucket hmc]

theorem answer_step_state (st : CoreState) (sid now a : String) (idx : ℕ)
    (answers : List (String × String)) (h : st.interviews sid = some ⟨idx, answers⟩)
    (hidx : idx + 1 < 10) :
    (answer_interview st sid now a).2 =
      { st with interviews :=
          updKey st.interviews sid ⟨idx + 1, answers ++ [(now, pyStrip a)]⟩ } := by
  rw [answer_step st sid now a idx answers h hidx]

theorem answer_not_started (st : CoreState) (sid now a : String)
    (h : st.interviews sid = none) :
    answer_interview st sid now a = ((false, some "Interview not started"), st) := by
  unfold answer_interview
  split
  · rfl
  · rename_i entry heq
    rw [h] at heq
    cases heq

theorem delKey_updKey {β : Type} (f : String → Option β) (k : String) (v : β) :
    delKey (updKey f k v) k = delKey f k := by
  funext x
  by_cases h : x = k <;> simp [delKey, updKey, h]

theorem delKey_same {β : Type} (f : String → Option β) (k : String) :
    delKey f k k = none := by simp [delKey]

theorem runAnswers_append (sid now : String) (xs ys : List String) (st : CoreState) :
    runAnswers sid now st (xs ++ ys) = runAnswers sid now (runAnswers sid now st xs) ys := by
  induction xs generalizing st with
  | nil => rfl
  | cons x xt ih =>
    simp only [List.cons_append, runAnswers]
    exact ih _

theorem runAnswers_mid (sid now : String) (as : List String) (st : CoreState)
    (idx : ℕ) (answers : List (String × String))
    (h : st.interviews sid = some ⟨idx, answers⟩) (hlen : idx + as.length < 10) :
    runAnswers sid now st as =
      { st with interviews := updKey st.interviews sid ⟨idx + as.length, answers ++ as.map (fun a => (now, pyStrip a))⟩ } := by
  induction as generalizing st idx answers with
  | nil =>
    simp only [runAnswers, List.length_nil, Nat.add_zero, List.map_nil, List.append_nil]
    rw [updKey_self st.interviews sid ⟨idx, answers⟩ h]
  | cons a rest ih =>
    rw [show runAnswers sid now st (a :: rest) =
      runAnswers sid now (answer_interview st sid now a).2 rest from rfl]
    rw [answer_step_state st sid now a idx answers h (by simp at hlen; omega)]
    rw [ih _ (idx + 1) (answers ++ [(now, pyStrip a)]) (updKey_same _ _ _)
      (by simp at hlen ⊢; omega)]
    simp only [updKey_updKey, List.length_cons, List.map_cons, List.append_assoc,
      List.singleton_append]
    have harith : idx + 1 + rest.length = idx + (rest.length + 1) := by omega
    rw [harith]

/-- C5 (amended): after one `start_interview` and exactly 10
`answer_interview` calls, the interview is completed: the full summary is
stored as a memory entry (source `"interview-summary"`) in the sessionʼs
memories list, each surviving `question -> answer` line is stored as a
chunk in the chunk store, the per-context interview state is deleted, and
a further `answer_interview` call fails as a boolean failure (ok = false),
not an exception, leaving the state unchanged. -/
theorem interview_completes (st0 : CoreState) (sid now : String) (s0 : SessionData)
    (bucket0 : List MemoryChunk) (hs : st0.sessions sid = some s0)
    (hmc : st0.memory_chunks sid = some bucket0)
    (a1 a2 a3 a4 a5 a6 a7 a8 a9 a10 x : String) :
    (runAnswers sid now (start_interview st0 sid).2
        [a1, a2, a3, a4, a5, a6, a7, a8, a9, a10]).interviews sid = none ∧
      (runAnswers sid now (start_interview st0 sid).2
        [a1, a2, a3, a4, a5, a6, a7, a8, a9, a10]).sessions sid =
        some { s0 with memories := s0.memories ++
          [⟨pyStrip (joinNl (interviewSummaryLines
              ([a1, a2, a3, a4, a5, a6, a7, a8, a9, a10].map (fun a => (now, pyStrip a))))),
            "interview-summary", now⟩] } ∧
      (runAnswers sid now (start_interview st0 sid).2
        [a1, a2, a3, a4, a5, a6, a7, a8, a9, a10]).memory_chunks sid =
        some (bucket0 ++ chunkAppend (interviewSummaryLines
          ([a1, a2, a3, a4, a5, a6, a7, a8, a9, a10].map (fun a => (now, pyStrip a))))) ∧
      answer_interview (runAnswers sid now (start_interview st0 sid).2
          [a1, a2, a3, a4, a5, a6, a7, a8, a9, a10]) sid now x =
        ((false, some "Interview not started"),
          runAnswers sid now (start_interview st0 sid).2
            [a1, a2, a3, a4, a5, a6, a7, a8, a9, a10]) := by
  have hstart : (start_interview st0 sid).2 =
      { st0 with interviews := updKey st0.interviews sid ⟨0, []⟩ } := by
    unfold start_interview
    rw [if_neg (by simp [hs])]
  have hsplit : ([a1, a2, a3, a4, a5, a6, a7, a8, a9, a10] : List String) =
      [a1, a2, a3, a4, a5, a6, a7, a8, a9] ++ [a10] := rfl
  have h9 : runAnswers sid now (start_interview st0 sid).2
      [a1, a2, a3, a4, a5, a6, a7, a8, a9] =
      { st0 with interviews := updKey st0.interviews sid ⟨9, [a1, a2, a3, a4, a5, a6, a7, a8, a9].map (fun a => (now, pyStrip a))⟩ } := by
    rw [hstart]
    rw [runAnswers_mid sid now [a1, a2, a3, a4, a5, a6, a7, a8, a9] _ 0 []
      (updKey_same _ _ _) (by simp)]
    simp [updKey_updKey]
  have hF : runAnswers sid now (start_interview st0 sid).2
      [a1, a2, a3, a4, a5, a6, a7, a8, a9, a10] =
      { st0 with
        sessions := updKey st0.sessions sid { s0 with memories := s0.memories ++
          [⟨pyStrip (joinNl (interviewSummaryLines
              ([a1, a2, a3, a4, a5, a6, a7, a8, a9, a10].map (fun a => (now, pyStrip a))))),
            "interview-summary", now⟩] },
        interviews := delKey st0.interviews sid,
        memory_chunks := updKey st0.memory_chunks sid
          (bucket0 ++ chunkAppend (interviewSummaryLines
            ([a1, a2, a3, a4, a5, a6, a7, a8, a9, a10].map (fun a => (now, pyStrip a))))) } := by
    rw [hsplit, runAnswers_append, h9]
    rw [show ∀ stq : CoreState, runAnswers sid now stq [a10] =
      (answer_interview stq sid now a10).2 from fun _ => rfl]
    rw [answer_final { st0 with interviews := updKey st0.interviews sid ⟨9, [a1, a2, a3, a4, a5, a6, a7, a8, a9].map (fun a => (now, pyStrip a))⟩ } sid now a10 9
      ([a1, a2, a3, a4, a5, a6, a7, a8, a9].map (fun a => (now, pyStrip a))) s0 bucket0
      (updKey_same _ _ _) (by omega) hs hmc]
    simp only [delKey_updKey, List.map_append, List.map_cons, List.map_nil]
  rw [hF]
  refine ⟨delKey_same st0.interviews sid, updKey_same _ _ _, updKey_same _ _ _, ?_⟩
  exact answer_not_started _ sid now x (delKey_same st0.interviews sid)

/-- Witness for C5: a fresh session, ten answers `"a"`. -/
theorem interview_completes_witness :
    (runAnswers "s" "t1" (start_interview stS0 "s").2
        ["a", "a", "a", "a", "a", "a", "a", "a", "a", "a"]).interviews "s" = none ∧
      answer_interview (runAnswers "s" "t1" (start_interview stS0 "s").2
          ["a", "a", "a", "a", "a", "a", "a", "a", "a", "a"]) "s" "t1" "z" =
        ((false, some "Interview not started"),
          runAnswers "s" "t1" (start_interview stS0 "s").2
            ["a", "a", "a", "a", "a", "a", "a", "a", "a", "a"]) :=
  ⟨(interview_completes stS0 "s" "t1" ⟨⟨"", "", "", [], [], "memory", ""⟩, [], [], 5, "t0"⟩
      [] rfl rfl "a" "a" "a" "a" "a" "a" "a" "a" "a" "a" "z").1,
    (interview_completes stS0 "s" "t1" ⟨⟨"", "", "", [], [], "memory", ""⟩, [], [], 5, "t0"⟩
      [] rfl rfl "a" "a" "a" "a" "a" "a" "a" "a" "a" "a" "z").2.2.2⟩

set_option maxRecDepth 100000 in
/-- Counterexample for C5 as stated: after the completed interview the full
summary text is *not* among the chunk-store texts (the store holds the ten
individual `question -> answer` lines); the summary lives in the sessionʼs
memories list instead. -/
theorem interview_summary_location_counterexample :
    ((stDone.memory_chunks "s").getD []).all (fun c => c.text != summaryTen) = true ∧
      ((stDone.memory_chunks "s").getD []).length = 10 ∧
      ((stDone.sessions "s").map (fun s => s.memories.map (fun m => m.text))).getD [] =
        [pyStrip summaryTen] := by
  refine ⟨by decide, by decide, by decide⟩

/-! ## C8: reply post-processing -/

theorem mem_dropWhile_of_not {p : Char → Bool} {c : Char} {l : List Char}
    (h : c ∈ l) (hc : p c = false) : c ∈ l.dropWhile p := by
  induction l with
  | nil => cases h
  | cons x xs ih =>
    by_cases hx : p x = true
    · rw [List.dropWhile_cons_of_pos hx]
      rcases List.mem_cons.mp h with h | h
      · rw [h] at hc; rw [hc] at hx; cases hx
      · exact ih h
    · rw [List.dropWhile_cons_of_neg hx]
      exact h

theorem mem_pyStripL_of_not {c : Char} {l : List Char} (h : c ∈ l)
    (hc : isPySpace c = false) : c ∈ pyStripL l := by
  unfold pyStripL
  rw [List.mem_reverse]
  apply mem_dropWhile_of_not _ hc
  rw [List.mem_reverse]
  exact mem_dropWhile_of_not h hc

theorem mem_of_mem_pyStripL {c : Char} {l : List Char} (h : c ∈ pyStripL l) : c ∈ l := by
  unfold pyStripL at h
  rw [List.mem_reverse] at h
  have h2 := List.dropWhile_suffix (l := (l.dropWhile isPySpace).reverse) isPySpace
  have h3 := h2.subset h
  rw [List.mem_reverse] at h3
  exact (List.dropWhile_suffix isPySpace).subset h3

theorem mem_of_mem_collapseHor {c : Char} {l : List Char} (h : c ∈ collapseHor l) :
    c ∈ l ∨ c = ' ' := by
  induction l using collapseHor.induct with
  | case1 => cases h
  | case2 x hx =>
    rw [collapseHor, if_pos hx] at h
    right
    simpa using h
  | case3 x hx =>
    rw [collapseHor, if_neg hx] at h
    left
    exact h
  | case4 x d rest hx hd ih =>
    rw [collapseHor, if_pos hx, if_pos hd] at h
    rcases ih h with h | h
    · exact Or.inl (List.mem_cons_of_mem _ h)
    · exact Or.inr h
  | case5 x d rest hx hd ih =>
    rw [collapseHor, if_pos hx, if_neg hd] at h
    rcases List.mem_cons.mp h with h | h
    · exact Or.inr h
    · rcases ih h with h | h
      · exact Or.inl (List.mem_cons_of_mem _ h)
      · exact Or.inr h
  | case6 x d rest hx ih =>
    rw [collapseHor, if_neg hx] at h
    rcases List.mem_cons.mp h with h | h
    · exact Or.inl (by rw [h]; exact List.mem_cons_self _ _)
    · rcases ih h with h | h
      · exact Or.inl (List.mem_cons_of_mem _ h)
      · exact Or.inr h

theorem mem_collapseHor_of_not_hor {c : Char} {l : List Char} (h : c ∈ l)
    (hc : isHor c = false) : c ∈ collapseHor l := by
  induction l using collapseHor.induct with
  | case1 => cases h
  | case2 x hx =>
    rcases List.mem_cons.mp h with h | h
    · rw [h] at hc; rw [hc] at hx; cases hx
    · cases h
  | case3 x hx =>
    rw [collapseHor, if_neg hx]
    exact h
  | case4 x d rest hx hd ih =>
    rw [collapseHor, if_pos hx, if_pos hd]
    rcases List.mem_cons.mp h with h | h
    · rw [h] at hc; rw [hc] at hx; cases hx
    · exact ih h
  | case5 x d rest hx hd ih =>
    rw [collapseHor, if_pos hx, if_neg hd]
    rcases List.mem_cons.mp h with h | h
    · rw [h] at hc; rw [hc] at hx; cases hx
    · exact List.mem_cons_of_mem _ (ih h)
  | case6 x d rest hx ih =>
    rw [collapseHor, if_neg hx]
    rcases List.mem_cons.mp h with h | h
    · rw [h]; exact List.mem_cons_self _ _
    · exact List.mem_cons_of_mem _ (ih h)

theorem nlNorm_eq1 (rest : List Char) :
    nlNorm (' ' :: '\n' :: ' ' :: rest) = '\n' :: nlNorm rest := by
  rw [nlNorm]

theorem nlNorm_eq2 (rest : List Char) (h : ∀ r, rest = ' ' :: r → False) :
    nlNorm (' ' :: '\n' :: rest) = '\n' :: nlNorm rest := by
  rw [nlNorm]
  exact h

theorem nlNorm_eq3 (rest : List Char) :
    nlNorm ('\n' :: ' ' :: rest) = '\n' :: nlNorm rest := by
  rw [nlNorm]

theorem nlNorm_eq4 (rest : List Char) (h : ∀ r, rest = ' ' :: r → False) :
    nlNorm ('\n' :: rest) = '\n' :: nlNorm rest := by
  rw [nlNorm]
  exact h

theorem nlNorm_eq5 (c : Char) (rest : List Char)
    (h1 : ∀ r, c = ' ' → rest = '\n' :: ' ' :: r → False)
    (h2 : ∀ r, c = ' ' → rest = '\n' :: r → False)
    (h3 : ∀ r, c = '\n' → rest = ' ' :: r → False)
    (h4 : c = '\n' → False) :
    nlNorm (c :: rest) = c :: nlNorm rest := by
  rw [nlNorm] <;> assumption

theorem mem_of_mem_nlNorm {c : Char} {l : List Char} (h : c ∈ nlNorm l) : c ∈ l := by
  induction l using nlNorm.induct with
  | case1 rest ih =>
    rw [nlNorm_eq1] at h
    rcases List.mem_cons.mp h with h | h
    · rw [h]; exact List.mem_cons_of_mem _ (List.mem_cons_self _ _)
    · exact List.mem_cons_of_mem _ (List.mem_cons_of_mem _ (List.mem_cons_of_mem _ (ih h)))
  | case2 rest h1 ih =>
    rw [nlNorm_eq2 rest h1] at h
    rcases List.mem_cons.mp h with h | h
    · rw [h]; exact List.mem_cons_of_mem _ (List.mem_cons_self _ _)
    · exact List.mem_cons_of_mem _ (List.mem_cons_of_mem _ (ih h))
  | case3 rest ih =>
    rw [nlNorm_eq3] at h
    rcases List.mem_cons.mp h with h | h
    · rw [h]; exact List.mem_cons_self _ _
    · exact List.mem_cons_of_mem _ (List.mem_cons_of_mem _ (ih h))
  | case4 rest h1 ih =>
    rw [nlNorm_eq4 rest h1] at h
    rcases List.mem_cons.mp h with h | h
    · rw [h]; exact List.mem_cons_self _ _
    · exact List.mem_cons_of_mem _ (ih h)
  | case5 d rest h1 h2 h3 h4 ih =>
    rw [nlNorm_eq5 d rest h1 h2 h3 h4] at h
    rcases List.mem_cons.mp h with h | h
    · rw [h]; exact List.mem_cons_self _ _
    · exact List.mem_cons_of_mem _ (ih h)
  | case6 => cases h

theorem mem_nlNorm_of_ne_space {c : Char} {l : List Char} (h : c ∈ l) (hc : c ≠ ' ') :
    c ∈ nlNorm l := by
  induction l using nlNorm.induct with
  | case1 rest ih =>
    rw [nlNorm_eq1]
    rcases List.mem_cons.mp h with h | h
    · exact absurd h hc
    · rcases List.mem_cons.mp h with h | h
      · rw [h]; exact List.mem_cons_self _ _
      · rcases List.mem_cons.mp h with h | h
        · exact absurd h hc
        · exact List.mem_cons_of_mem _ (ih h)
  | case2 rest h1 ih =>
    rw [nlNorm_eq2 rest h1]
    rcases List.mem_cons.mp h with h | h
    · exact absurd h hc
    · rcases List.mem_cons.mp h with h | h
      · rw [h]; exact List.mem_cons_self _ _
      · exact List.mem_cons_of_mem _ (ih h)
  | case3 rest ih =>
    rw [nlNorm_eq3]
    rcases List.mem_cons.mp h with h | h
    · rw [h]; exact List.mem_cons_self _ _
    · rcases List.mem_cons.mp h with h | h
      · exact absurd h hc
      · exact List.mem_cons_of_mem _ (ih h)
  | case4 rest h1 ih =>
    rw [nlNorm_eq4 rest h1]
    rcases List.mem_cons.mp h with h | h
    · rw [h]; exact List.mem_cons_self _ _
    · exact List.mem_cons_of_mem _ (ih h)
  | case5 d rest h1 h2 h3 h4 ih =>
    rw [nlNorm_eq5 d rest h1 h2 h3 h4]
    rcases List.mem_cons.mp h with h | h
    · rw [h]; exact List.mem_cons_self _ _
    · exact List.mem_cons_of_mem _ (ih h)
  | case6 => cases h

theorem collapseHor_head (l : List Char) :
    (collapseHor l).head? = l.head?.map (fun c => if isHor c then ' ' else c) := by
  induction l using collapseHor.induct with
  | case1 => rfl
  | case2 x hx => rw [collapseHor, if_pos hx]; simp [hx]
  | case3 x hx => rw [collapseHor, if_neg hx]; simp [hx]
  | case4 x d rest hx hd ih => rw [collapseHor, if_pos hx, if_pos hd, ih]; simp [hx, hd]
  | case5 x d rest hx hd ih => rw [collapseHor, if_pos hx, if_neg hd]; simp [hx]
  | case6 x d rest hx ih => rw [collapseHor, if_neg hx]; simp [hx]

theorem collapseHor_no_tab (l : List Char) : '\t' ∉ collapseHor l := by
  induction l using collapseHor.induct with
  | case1 => simp [collapseHor]
  | case2 x hx => rw [collapseHor, if_pos hx]; simp
  | case3 x hx =>
    rw [collapseHor, if_neg hx]
    intro hc
    rcases List.mem_cons.mp hc with hc | hc
    · rw [← hc] at hx; exact hx (by decide)
    · cases hc
  | case4 x d rest hx hd ih => rw [collapseHor, if_pos hx, if_pos hd]; exact ih
  | case5 x d rest hx hd ih =>
    rw [collapseHor, if_pos hx, if_neg hd]
    intro hc
    rcases List.mem_cons.mp hc with hc | hc
    · cases hc
    · exact ih hc
  | case6 x d rest hx ih =>
    rw [collapseHor, if_neg hx]
    intro hc
    rcases List.mem_cons.mp hc with hc | hc
    · rw [← hc] at hx; exact hx (by decide)
    · exact ih hc

theorem collapseHor_chain (l : List Char) :
    List.Chain' (fun a b => ¬(a = ' ' ∧ b = ' ')) (collapseHor l) := by
  induction l using collapseHor.induct with
  | case1 => simp [collapseHor]
  | case2 x hx => rw [collapseHor, if_pos hx]; simp
  | case3 x hx => rw [collapseHor, if_neg hx]; simp
  | case4 x d rest hx hd ih => rw [collapseHor, if_pos hx, if_pos hd]; exact ih
  | case5 x d rest hx hd ih =>
    rw [collapseHor, if_pos hx, if_neg hd]
    rw [List.chain'_cons']
    refine ⟨?_, ih⟩
    intro b hb
    rw [collapseHor_head (d :: rest)] at hb
    have hb' : (if isHor d = true then ' ' else d) = b := by simpa using hb
    rw [if_neg hd] at hb'
    intro hcon
    rw [← hb'] at hcon
    rw [hcon.2] at hd
    exact hd (by decide)
  | case6 x d rest hx ih =>
    rw [collapseHor, if_neg hx]
    rw [List.chain'_cons']
    refine ⟨?_, ih⟩
    intro b hb hcon
    rw [hcon.1] at hx
    exact hx (by decide)

theorem nlNorm_head (l : List Char) :
    (nlNorm l).head? = l.head? ∨ (nlNorm l).head? = some '\n' := by
  induction l using nlNorm.induct with
  | case1 rest ih => right; rw [nlNorm_eq1]; rfl
  | case2 rest h1 ih => right; rw [nlNorm_eq2 rest h1]; rfl
  | case3 rest ih => left; rw [nlNorm_eq3]; rfl
  | case4 rest h1 ih => left; rw [nlNorm_eq4 rest h1]; rfl
  | case5 d rest h1 h2 h3 h4 ih => left; rw [nlNorm_eq5 d rest h1 h2 h3 h4]; rfl
  | case6 => left; rfl

theorem nlNorm_no_tab {l : List Char} (h : '\t' ∉ l) : '\t' ∉ nlNorm l :=
  fun hc => h (mem_of_mem_nlNorm hc)

theorem nlNorm_chain {l : List Char}
    (h : List.Chain' (fun a b => ¬(a = ' ' ∧ b = ' ')) l) :
    List.Chain' (fun a b => ¬(a = ' ' ∧ b = ' ')) (nlNorm l) := by
  induction l using nlNorm.induct with
  | case1 rest ih =>
    rw [nlNorm_eq1]
    rw [List.chain'_cons']
    refine ⟨fun b _ hcon => absurd hcon.1 (by decide), ?_⟩
    apply ih
    rw [List.chain'_cons, List.chain'_cons, List.chain'_cons'] at h
    exact h.2.2.2
  | case2 rest h1 ih =>
    rw [nlNorm_eq2 rest h1]
    rw [List.chain'_cons']
    refine ⟨fun b _ hcon => absurd hcon.1 (by decide), ?_⟩
    apply ih
    rw [List.chain'_cons, List.chain'_cons'] at h
    exact h.2.2
  | case3 rest ih =>
    rw [nlNorm_eq3]
    rw [List.chain'_cons']
    refine ⟨fun b _ hcon => absurd hcon.1 (by decide), ?_⟩
    apply ih
    rw [List.chain'_cons, List.chain'_cons'] at h
    exact h.2.2
  | case4 rest h1 ih =>
    rw [nlNorm_eq4 rest h1]
    rw [List.chain'_cons']
    refine ⟨fun b _ hcon => absurd hcon.1 (by decide), ?_⟩
    apply ih
    rw [List.chain'_cons'] at h
    exact h.2
  | case5 d rest h1 h2 h3 h4 ih =>
    rw [nlNorm_eq5 d rest h1 h2 h3 h4]
    rw [List.chain'_cons'] at h
    rw [List.chain'_cons']
    refine ⟨?_, ih h.2⟩
    intro b hb hcon
    rcases nlNorm_head rest with hh | hh
    · rw [hh] at hb
      exact h.1 b hb hcon
    · rw [hh] at hb
      rw [Option.mem_def] at hb
      injection hb with hb
      rw [← hb] at hcon
      cases hcon.2
  | case6 => simp [nlNorm]

theorem dropWhile_head_false {p : Char → Bool} {l : List Char} {c : Char}
    (h : (l.dropWhile p).head? = some c) : p c = false := by
  induction l with
  | nil => cases h
  | cons x xs ih =>
    by_cases px : p x = true
    · rw [List.dropWhile_cons_of_pos px] at h
      exact ih h
    · rw [List.dropWhile_cons_of_neg px] at h
      injection h with h
      rw [← h]
      exact Bool.eq_false_iff.mpr px

theorem pyStripL_decomp (l : List Char) : ∃ s t, l = s ++ pyStripL l ++ t := by
  rcases List.dropWhile_suffix (l := l) isPySpace with ⟨s, hs⟩
  rcases List.dropWhile_suffix (l := (l.dropWhile isPySpace).reverse) isPySpace with ⟨t, ht⟩
  refine ⟨s, t.reverse, ?_⟩
  have h2 : l.dropWhile isPySpace = pyStripL l ++ t.reverse := by
    have := congrArg List.reverse ht
    simpa [pyStripL, List.reverse_append] using this.symm
  rw [List.append_assoc, ← h2, hs]

theorem chain_pyStripL {l : List Char}
    (h : List.Chain' (fun a b => ¬(a = ' ' ∧ b = ' ')) l) :
    List.Chain' (fun a b => ¬(a = ' ' ∧ b = ' ')) (pyStripL l) := by
  rcases pyStripL_decomp l with ⟨s, t, hl⟩
  rw [hl, List.append_assoc] at h
  exact (h.right_of_append).left_of_append

theorem pyStripL_no_tab {l : List Char} (h : '\t' ∉ l) : '\t' ∉ pyStripL l :=
  fun hc => h (mem_of_mem_pyStripL hc)

theorem pyStripL_head {l : List Char} {c : Char} (h : (pyStripL l).head? = some c) :
    isPySpace c = false := by
  unfold pyStripL at h
  rw [List.head?_reverse] at h
  rcases List.dropWhile_suffix (l := (l.dropWhile isPySpace).reverse) isPySpace with ⟨t, ht⟩
  have hne : (l.dropWhile isPySpace).reverse.dropWhile isPySpace ≠ [] := by
    intro hc
    rw [hc] at h
    cases h
  have hlast : ((l.dropWhile isPySpace).reverse.dropWhile isPySpace).getLast? =
      (l.dropWhile isPySpace).reverse.getLast? := by
    conv_rhs => rw [← ht]
    exact (List.getLast?_append_of_ne_nil _ hne).symm
  rw [hlast, List.getLast?_reverse] at h
  exact dropWhile_head_false h

theorem pyStripL_last {l : List Char} {c : Char} (h : (pyStripL l).getLast? = some c) :
    isPySpace c = false := by
  unfold pyStripL at h
  rw [List.getLast?_reverse] at h
  exact dropWhile_head_false h

theorem dropWhile_eq_self_of_head {p : Char → Bool} {l : List Char}
    (h : ∀ c, l.head? = some c → p c = false) : l.dropWhile p = l := by
  cases l with
  | nil => rfl
  | cons x xs => exact List.dropWhile_cons_of_neg (by rw [h x rfl]; simp)

theorem pyStripL_idem (l : List Char) : pyStripL (pyStripL l) = pyStripL l := by
  have h1 : (pyStripL l).dropWhile isPySpace = pyStripL l :=
    dropWhile_eq_self_of_head (fun c hc => pyStripL_head hc)
  show (((pyStripL l).dropWhile isPySpace).reverse.dropWhile isPySpace).reverse = pyStripL l
  rw [h1]
  have h2 : (pyStripL l).reverse.dropWhile isPySpace = (pyStripL l).reverse :=
    dropWhile_eq_self_of_head (fun c hc => by
      rw [List.head?_reverse] at hc
      exact pyStripL_last hc)
  rw [h2, List.reverse_reverse]

theorem toList_mk (l : List Char) : (⟨l⟩ : String).toList = l := rfl

theorem postprocess_keeps {s : String} {c : Char} (hmem : c ∈ s.toList)
    (h1 : isDashChar c = false) (h2 : isHor c = false) (h4 : isPySpace c = false) :
    c ∈ (_postprocess_reply s).toList := by
  have hne : ¬(s = "") := by
    intro he
    rw [he] at hmem
    cases hmem
  unfold _postprocess_reply
  rw [if_neg hne, toList_mk]
  apply mem_pyStripL_of_not _ h4
  apply mem_nlNorm_of_ne_space _ (by intro hc; rw [hc] at h4; cases h4)
  apply mem_collapseHor_of_not_hor _ h2
  have : (if isDashChar c then ' ' else c) = c := by rw [h1]; simp
  rw [← this]
  exact List.mem_map_of_mem _ hmem

theorem postprocess_ne_empty {s : String} {c : Char} (hmem : c ∈ s.toList)
    (h1 : isDashChar c = false) (h2 : isHor c = false) (h4 : isPySpace c = false) :
    _postprocess_reply s ≠ "" := by
  intro he
  have := postprocess_keeps hmem h1 h2 h4
  rw [he] at this
  cases this

/-- C8 (amended): post-processing *replaces* every dash/bullet character
with a space (rather than deleting it), collapses runs of horizontal
whitespace to one space, drops spaces adjacent to newlines while keeping
the newlines themselves, and trims; consequently the output never contains
a dash/bullet or a tab, never has two adjacent spaces, and is its own
trimming.  It is applied to every reply `generate_reply` returns,
regardless of path. -/
theorem postprocess_reply_spec :
    (∀ (s : String) (c : Char), c ∈ (_postprocess_reply s).toList → isDashChar c = false) ∧
      (∀ s : String, '\t' ∉ (_postprocess_reply s).toList) ∧
      (∀ s : String, List.Chain' (fun a b => ¬(a = ' ' ∧ b = ' '))
        (_postprocess_reply s).toList) ∧
      (∀ s : String, pyStrip (_postprocess_reply s) = _postprocess_reply s) ∧
      _postprocess_reply "a-b" = "a b" ∧
      _postprocess_reply "a \t  b" = "a b" ∧
      _postprocess_reply " x \n  y\n\nz " = "x\ny\n\nz" ∧
      (∀ cfg env rnd st sid text cid mo ho r st',
        generate_reply cfg env rnd st sid text cid mo ho = (.ok r, st') →
        ∃ t, r.reply = _postprocess_reply t) := by
  refine ⟨?_, ?_, ?_, ?_, by decide, by decide, by decide, ?_⟩
  · intro s c hc
    unfold _postprocess_reply at hc
    by_cases hs : s = ""
    · rw [if_pos hs] at hc
      cases hc
    · rw [if_neg hs, toList_mk] at hc
      have hc2 := mem_of_mem_nlNorm (mem_of_mem_pyStripL hc)
      rcases mem_of_mem_collapseHor hc2 with hc3 | hc3
      · rcases List.mem_map.mp hc3 with ⟨a, _, ha⟩
        by_cases hda : isDashChar a = true
        · rw [if_pos hda] at ha
          rw [← ha]
          decide
        · rw [if_neg hda] at ha
          rw [← ha]
          exact Bool.eq_false_iff.mpr hda
      · rw [hc3]
        decide
  · intro s
    unfold _postprocess_reply
    by_cases hs : s = ""
    · rw [if_pos hs]
      simp
    · rw [if_neg hs, toList_mk]
      exact pyStripL_no_tab (nlNorm_no_tab (collapseHor_no_tab _))
  · intro s
    unfold _postprocess_reply
    by_cases hs : s = ""
    · rw [if_pos hs]
      simp
    · rw [if_neg hs, toList_mk]
      exact chain_pyStripL (nlNorm_chain (collapseHor_chain _))
  · intro s
    unfold _postprocess_reply
    by_cases hs : s = ""
    · rw [if_pos hs]
      rfl
    · rw [if_neg hs]
      show (⟨pyStripL (⟨pyStripL _⟩ : String).toList⟩ : String) = _
      rw [toList_mk, pyStripL_idem]
  · intro cfg env rnd st sid text cid mo ho r st' h
    simp only [generate_reply] at h
    split at h
    · injection h with h1 h2
      injection h1 with h1
      exact ⟨_, by rw [← h1]⟩
    · split at h
      · injection h with h1 h2
        cases h1
      · split at h
        · injection h with h1 h2
          injection h1 with h1
          exact ⟨_, by rw [← h1]⟩
        · split at h
          · rename_i heq
            split at heq
            · split at heq
              · injection heq with hq1 hq2
                injection hq2 with hq2
                injection h with h1 h2
                injection h1 with h1
                exact ⟨_, by rw [← h1, ← hq2]⟩
              · injection heq with hq1 hq2
                cases hq2
            · injection heq with hq1 hq2
              cases hq2
          · split at h
            · injection h with h1 h2
              cases h1
            · injection h with h1 h2
              injection h1 with h1
              exact ⟨_, by rw [← h1]⟩

/-- Witness for C8: the output on `"a-b"` contains no dash character. -/
theorem postprocess_reply_spec_witness :
    isDashChar 'a' = false ∧ pyStrip (_postprocess_reply "a-b") = _postprocess_reply "a-b" :=
  ⟨postprocess_reply_spec.1 "a-b" 'a' (by decide),
    postprocess_reply_spec.2.2.2.1 "a-b"⟩

/-- Counterexample for C8 as stated: "removing" the dash characters would
turn `"a-b"` into `"ab"`, but the code replaces each dash by a space and
returns `"a b"`. -/
theorem postprocess_removal_counterexample :
    postprocess_claimed "a-b" = "ab" ∧ _postprocess_reply "a-b" = "a b" ∧
      _postprocess_reply "a-b" ≠ postprocess_claimed "a-b" := by
  refine ⟨by decide, by decide, by decide⟩

/-! ## C3: offline replies -/

theorem qEmbedsOf_offline (cfg : Config) (e : Env) (q : String)
    (hoff : cfg.offline = true) : qEmbedsOf cfg e q = none := by
  unfold qEmbedsOf _embed_texts
  rw [hoff]
  simp

theorem search_offline_env (cfg : Config) (env env' : Env) (st : CoreState)
    (sid q : String) (k : ℕ) (hoff : cfg.offline = true) :
    search_memory_chunks cfg env st sid q k = search_memory_chunks cfg env' st sid q k := by
  unfold search_memory_chunks
  dsimp only
  rw [qEmbedsOf_offline cfg env _ hoff, qEmbedsOf_offline cfg env' _ hoff]

theorem search_offline_state (cfg : Config) (env : Env) (st : CoreState)
    (sid q : String) (k : ℕ) (hoff : cfg.offline = true) :
    (search_memory_chunks cfg env st sid q k).2 = st := by
  unfold search_memory_chunks
  dsimp only
  rw [qEmbedsOf_offline cfg env _ hoff]
  by_cases h1 : _prep_chunk_text q 400 = ""
  · rw [if_pos h1]
  · rw [if_neg h1]
    by_cases h2 : ((st.memory_chunks sid).getD []).isEmpty = true
    · rw [if_pos h2]
    · rw [if_neg h2]

theorem search_state_shape (cfg : Config) (env : Env) (st : CoreState) (sid q : String)
    (k : ℕ) :
    ∃ mc, (search_memory_chunks cfg env st sid q k).2 = { st with memory_chunks := mc } := by
  unfold search_memory_chunks
  by_cases h1 : _prep_chunk_text q 400 = ""
  · rw [if_pos h1]
    exact ⟨st.memory_chunks, rfl⟩
  · rw [if_neg h1]
    by_cases h2 : ((st.memory_chunks sid).getD []).isEmpty = true
    · rw [if_pos h2]
      exact ⟨st.memory_chunks, rfl⟩
    · rw [if_neg h2]
      rcases hqe : qEmbedsOf cfg env (_prep_chunk_text q 400) with _ | qs
      · exact ⟨st.memory_chunks, rfl⟩
      · cases qs with
        | nil => exact ⟨st.memory_chunks, rfl⟩
        | cons v vs =>
          dsimp only
          by_cases h3 : (embeddingScored v
              (embedMissing cfg env ((st.memory_chunks sid).getD []))).isEmpty = true
          · rw [if_pos h3]
            exact ⟨_, rfl⟩
          · rw [if_neg h3]
            exact ⟨_, rfl⟩

theorem mem_joinSpace_head {c : Char} {g : String} {t : List String}
    (h : c ∈ g.toList) : c ∈ (joinSpace (g :: t)).toList := by
  cases t with
  | nil => exact h
  | cons y ys =>
    show c ∈ (g ++ " " ++ joinSpace (y :: ys)).data
    rw [String.data_append, String.data_append]
    exact List.mem_append_left _ (List.mem_append_left _ h)

theorem mem_joinSpace_filter {g : String} {t : List String} {c : Char}
    (hg : c ∈ g.toList) (hne : g.isEmpty = false) :
    c ∈ (joinSpace ((g :: t).filter (fun p => !p.isEmpty))).toList := by
  rw [List.filter_cons, hne]
  show c ∈ (joinSpace (g :: t.filter (fun p => !p.isEmpty))).toList
  exact mem_joinSpace_head hg

theorem mem_append_greet_w (a : String) :
    'w' ∈ (a ++ ", I\x27m right here with you.").toList := by
  show 'w' ∈ (a ++ ", I\x27m right here with you.").data
  rw [String.data_append]
  exact List.mem_append_right _ (by decide)

theorem append_greet_ne_empty (a : String) :
    (a ++ ", I\x27m right here with you.").isEmpty = false := by
  rw [Bool.eq_false_iff]
  intro he
  have he2 := (String.isEmpty_iff _).mp he
  have hd : a.data ++ (", I\x27m right here with you." : String).data = [] := by
    rw [← String.data_append, he2]
  exact absurd (List.append_eq_nil.mp hd).2 (by decide)

theorem fallback_reply_mem_w (message : String) (profile : Profile)
    (details : DetailSet) (snippet : String) :
    'w' ∈ (_fallback_reply message profile details snippet).toList := by
  unfold _fallback_reply
  dsimp only [List.cons_append, List.nil_append]
  apply mem_pyStripL_of_not _ (by decide)
  exact mem_joinSpace_filter (mem_append_greet_w _) (append_greet_ne_empty _)

theorem fallback_reply_ne_empty (message : String) (profile : Profile)
    (details : DetailSet) (snippet : String) :
    _fallback_reply message profile details snippet ≠ "" := by
  intro h
  have := fallback_reply_mem_w message profile details snippet
  rw [h] at this
  exact absurd this (by decide)

set_option maxHeartbeats 4000000 in
/-- C3: with the offline flag set, `generate_reply` consults neither the
model backend nor the embedding backend — its result is identical under any
two backends and any two random draws — and it returns `used_fallback =
true`, error summary `"OFFLINE"`, model label `"offline"`, a non-empty
deterministic reply, and leaves the state untouched. -/
theorem offline_reply_deterministic (cfg : Config) (env env' : Env)
    (rnd rnd' : RandSLR) (st : CoreState) (sid text : String)
    (cid mo : Option String) (ho : Option (List HistItem))
    (hoff : cfg.offline = true) :
    generate_reply cfg env rnd st sid text cid mo ho =
        generate_reply cfg env' rnd' st sid text cid mo ho ∧
      ∃ r : ReplyRes,
        generate_reply cfg env rnd st sid text cid mo ho = (.ok r, st) ∧
          r.usedFallback = true ∧ r.errorSummary = some "OFFLINE" ∧
          r.modelUsed = "offline" ∧ r.reply ≠ "" := by
  have hs6 : ∀ e : Env, (search_memory_chunks cfg e st sid text 6).2 = st :=
    fun e => search_offline_state cfg e st sid text 6 hoff
  have hs3 : ∀ e : Env, (search_memory_chunks cfg e st sid text 3).2 = st :=
    fun e => search_offline_state cfg e st sid text 3 hoff
  have he6 := search_offline_env cfg env env' st sid text 6 hoff
  have he3 := search_offline_env cfg env env' st sid text 3 hoff
  constructor
  · unfold generate_reply
    dsimp only
    simp only [hoff, eq_self_iff_true, if_true]
    rw [he6, hs6 env', he3]
  · unfold generate_reply
    dsimp only
    simp only [hoff, eq_self_iff_true, if_true]
    rw [hs6 env]
    by_cases hmem : (search_memory_chunks cfg env st sid text 6).1.isEmpty = true
    · rw [if_pos hmem]
      dsimp only
      rw [hs3 env]
      exact ⟨_, rfl, rfl, rfl, rfl, postprocess_ne_empty
        (fallback_reply_mem_w _ _ _ _) (by decide) (by decide) (by decide)⟩
    · rw [if_neg hmem]
      dsimp only
      exact ⟨_, rfl, rfl, rfl, rfl, postprocess_ne_empty
        (fallback_reply_mem_w _ _ _ _) (by decide) (by decide) (by decide)⟩

/-- Witness: the C3 theorem applied at a concrete offline configuration,
two different backends and two random draws. -/
theorem offline_reply_deterministic_witness :
    cfgOffline.offline = true ∧
      (generate_reply cfgOffline envDummy rnd0 stBeach "s" "beach" none none none =
          generate_reply cfgOffline envFailAll rnd0 stBeach "s" "beach" none none none ∧
        ∃ r : ReplyRes,
          generate_reply cfgOffline envDummy rnd0 stBeach "s" "beach" none none none =
              (.ok r, stBeach) ∧
            r.usedFallback = true ∧ r.errorSummary = some "OFFLINE" ∧
            r.modelUsed = "offline" ∧ r.reply ≠ "") :=
  ⟨rfl, offline_reply_deterministic cfgOffline envDummy envFailAll rnd0 rnd0 stBeach
    "s" "beach" none none none rfl⟩

/-! ## C4: strict mode with both model calls failing -/

theorem summary_concat_ne (e1 e2 : ExcInfo) :
    excStr e1 ++ "; fallback_failed=" ++ excStr e2 ≠ "" := by
  intro h
  have hd : (excStr e1 ++ "; fallback_failed=").data ++ (excStr e2).data = [] := by
    rw [← String.data_append, h]
  have h2 := (List.append_eq_nil.mp hd).1
  rw [String.data_append] at h2
  exact absurd (List.append_eq_nil.mp h2).2 (by decide)

set_option maxHeartbeats 4000000 in
/-- C4: in strict-error mode, when every chat completion call fails — the
primary model with a model-error and the (distinct, non-empty) fallback
model too — `generate_reply` raises `ChatGenerationError` carrying the
concatenated error summary (`primary; fallback_failed=fallback`), and
`chat` propagates it, leaving every session (in particular its message
history) unchanged. -/
theorem strict_failure_raises (cfg : Config) (env : Env) (rnd : RandSLR)
    (st : CoreState) (s : SessionData) (sid text : String) (cid : Option String)
    (ho : Option (List HistItem)) (ts1 ts2 : String) (errOf : String → ExcInfo)
    (hoff : cfg.offline = false) (hkey : cfg.apiKeyPresent = true)
    (hstrict : cfg.strict = true)
    (hfail : ∀ m msgs k t, env.complete m msgs k t = Except.error (errOf m))
    (hfb1 : cfg.fallbackModel ≠ "")
    (hfb2 : cfg.fallbackModel ≠ pyStrip cfg.configuredModel)
    (hme : _is_model_error (errOf (pyStrip cfg.configuredModel)) = true)
    (hs : st.sessions sid = some s) :
    (generate_reply cfg env rnd st sid text cid none ho).1 =
        Except.error (.chatGenerationError
          (excStr (errOf (pyStrip cfg.configuredModel)) ++ "; fallback_failed=" ++
            excStr (errOf cfg.fallbackModel)) false) ∧
      (generate_reply cfg env rnd st sid text cid none ho).2.sessions = st.sessions ∧
      (chat cfg env rnd st sid text ho ts1 ts2).1 =
        Except.error (.chatGenerationError
          (excStr (errOf (pyStrip cfg.configuredModel)) ++ "; fallback_failed=" ++
            excStr (errOf cfg.fallbackModel)) false) ∧
      (chat cfg env rnd st sid text ho ts1 ts2).2.sessions = st.sessions := by
  have hoffP : ¬(cfg.offline = true) := by rw [hoff]; decide
  have hkeyP : ¬((!cfg.apiKeyPresent) = true) := by rw [hkey]; decide
  have htc : ∀ m msgs k t, tryCallMessages env m msgs k t = Except.error (errOf m) := by
    intro m msgs k t
    unfold tryCallMessages
    rw [hfail]
  have hgen : ∀ (cid2 : Option String) (ho2 : Option (List HistItem)),
      generate_reply cfg env rnd st sid text cid2 none ho2 =
        (Except.error (.chatGenerationError
          (excStr (errOf (pyStrip cfg.configuredModel)) ++ "; fallback_failed=" ++
            excStr (errOf cfg.fallbackModel)) false),
         (search_memory_chunks cfg env st sid text 6).2) := by
    intro cid2 ho2
    unfold generate_reply
    dsimp only
    rw [if_neg hoffP, if_neg hkeyP]
    simp only [htc]
    rw [if_pos ⟨hfb1, hfb2, hme⟩]
    dsimp only [Option.getD]
    rw [if_pos hstrict]
    rw [if_neg (summary_concat_ne (errOf (pyStrip cfg.configuredModel))
      (errOf cfg.fallbackModel))]
  obtain ⟨mc, hmc⟩ := search_state_shape cfg env st sid text 6
  refine ⟨?_, ?_, ?_, ?_⟩
  · rw [hgen cid ho]
  · rw [hgen cid ho, hmc]
  · unfold chat
    rw [hs]
    dsimp only
    rw [hgen]
  · unfold chat
    rw [hs]
    dsimp only
    rw [hgen, hmc]

/-- Witness: the C4 theorem at the strict configuration with a backend
whose every completion call raises a model error. -/
theorem strict_failure_raises_witness :
    (cfgOnline.offline = false ∧ cfgOnline.apiKeyPresent = true ∧ cfgOnline.strict = true ∧
      (∀ m msgs k t, envFailAll.complete m msgs k t = Except.error (errOfFail m)) ∧
      cfgOnline.fallbackModel ≠ "" ∧
      cfgOnline.fallbackModel ≠ pyStrip cfgOnline.configuredModel ∧
      _is_model_error (errOfFail (pyStrip cfgOnline.configuredModel)) = true ∧
      stS0.sessions "s" = some sessS0) ∧
    ((generate_reply cfgOnline envFailAll rnd0 stS0 "s" "hello" none none none).1 =
        Except.error (.chatGenerationError
          (excStr (errOfFail (pyStrip cfgOnline.configuredModel)) ++ "; fallback_failed=" ++
            excStr (errOfFail cfgOnline.fallbackModel)) false) ∧
      (generate_reply cfgOnline envFailAll rnd0 stS0 "s" "hello" none none none).2.sessions =
        stS0.sessions ∧
      (chat cfgOnline envFailAll rnd0 stS0 "s" "hello" none "t1" "t2").1 =
        Except.error (.chatGenerationError
          (excStr (errOfFail (pyStrip cfgOnline.configuredModel)) ++ "; fallback_failed=" ++
            excStr (errOfFail cfgOnline.fallbackModel)) false) ∧
      (chat cfgOnline envFailAll rnd0 stS0 "s" "hello" none "t1" "t2").2.sessions =
        stS0.sessions) :=
  ⟨⟨rfl, rfl, rfl, fun _ _ _ _ => rfl, by decide, by decide, by decide, rfl⟩,
    strict_failure_raises cfgOnline envFailAll rnd0 stS0 sessS0 "s" "hello" none none
      "t1" "t2" errOfFail rfl rfl rfl (fun _ _ _ _ => rfl) (by decide) (by decide)
      (by decide) rfl⟩

end Astralink
